import Mathlib

set_option autoImplicit false
set_option maxRecDepth 8000

namespace HostCart

/-! # Shallow embedding of the HostCart data and configuration layers

Python primitives first: `float` values are only stored and retrieved by this
code base (no arithmetic is ever performed on them), so they are carried
opaquely; we use `Rat` as the carrier, which has decidable equality. -/

abbrev PyFloat := Rat

/-- ASCII lower casing.  Models `str.lower` (and the ASCII case folding of the
embedded database's `LIKE`) on the strings the claims exercise; Python's
`str.lower` additionally folds non-ASCII letters, which no claim relies on. -/
def asciiLowerChar (c : Char) : Char :=
  if 'A' ≤ c ∧ c ≤ 'Z' then Char.ofNat (c.toNat + 32) else c

def pyLower (s : String) : String := String.mk (s.data.map asciiLowerChar)

/-! ## `datetime`: `isoformat` and `fromisoformat`

`src/src/data/game_database.py` serializes timestamps with
`datetime.isoformat()` and reads them back with `datetime.fromisoformat`.
We model naive datetimes (the only kind the repository constructs). -/

structure PyDateTime where
  year : Nat
  month : Nat
  day : Nat
  hour : Nat
  minute : Nat
  second : Nat
  microsecond : Nat
deriving DecidableEq

def isLeapYear (y : Nat) : Bool := y % 4 = 0 && (y % 100 ≠ 0 || y % 400 = 0)

def daysInMonth (y m : Nat) : Nat :=
  if m = 2 then (if isLeapYear y then 29 else 28)
  else if m = 4 ∨ m = 6 ∨ m = 9 ∨ m = 11 then 30
  else 31

/-- The range invariant Python's `datetime` constructor enforces. -/
def PyDateTime.valid (d : PyDateTime) : Bool :=
  1 ≤ d.year && d.year ≤ 9999 && 1 ≤ d.month && d.month ≤ 12 &&
  1 ≤ d.day && d.day ≤ daysInMonth d.year d.month &&
  d.hour ≤ 23 && d.minute ≤ 59 && d.second ≤ 59 && d.microsecond ≤ 999999

def decDigitChar (n : Nat) : Char := Char.ofNat (48 + n)

/-- Zero-padded fixed-width decimal rendering (every numeric field of
`datetime.isoformat` is fixed width). -/
def zeroPad : Nat → Nat → List Char
  | 0, _ => []
  | w + 1, n => decDigitChar (n / 10 ^ w % 10) :: zeroPad w n

/-- Models `datetime.isoformat()`: `YYYY-MM-DDTHH:MM:SS`, with `.ffffff`
appended exactly when the microsecond field is nonzero. -/
def isoChars (d : PyDateTime) : List Char :=
  zeroPad 4 d.year ++ '-' ::
    (zeroPad 2 d.month ++ '-' ::
      (zeroPad 2 d.day ++ 'T' ::
        (zeroPad 2 d.hour ++ ':' ::
          (zeroPad 2 d.minute ++ ':' ::
            (zeroPad 2 d.second ++
              (if d.microsecond = 0 then [] else '.' :: zeroPad 6 d.microsecond))))))

def datetime_isoformat (d : PyDateTime) : String := String.mk (isoChars d)

def decDigitVal (c : Char) : Option Nat :=
  if 48 ≤ c.toNat ∧ c.toNat ≤ 57 then some (c.toNat - 48) else none

/-- Read exactly `w` decimal digits, most significant first. -/
def readFixed : Nat → Nat → List Char → Option (Nat × List Char)
  | 0, acc, l => some (acc, l)
  | _ + 1, _, [] => none
  | w + 1, acc, c :: l =>
    match decDigitVal c with
    | some d => readFixed w (acc * 10 + d) l
    | none => none

def mkChecked (y mo dy h mi s us : Nat) : Option PyDateTime :=
  let d : PyDateTime := ⟨y, mo, dy, h, mi, s, us⟩
  if d.valid then some d else none

/-- Models `datetime.fromisoformat` on the shapes `isoformat` emits (date only,
date`T`time, date`T`time`.ffffff`); any other text raises, modelled as
`none`.  The only strings the repository ever parses are ones it previously
wrote with `isoformat`. -/
def fromisoChars (l : List Char) : Option PyDateTime :=
  match readFixed 4 0 l with
  | some (y, '-' :: l1) =>
    match readFixed 2 0 l1 with
    | some (mo, '-' :: l2) =>
      match readFixed 2 0 l2 with
      | some (dy, l3) =>
        match l3 with
        | [] => mkChecked y mo dy 0 0 0 0
        | 'T' :: l4 =>
          match readFixed 2 0 l4 with
          | some (h, ':' :: l5) =>
            match readFixed 2 0 l5 with
            | some (mi, ':' :: l6) =>
              match readFixed 2 0 l6 with
              | some (s, l7) =>
                match l7 with
                | [] => mkChecked y mo dy h mi s 0
                | '.' :: l8 =>
                  match readFixed 6 0 l8 with
                  | some (us, []) => mkChecked y mo dy h mi s us
                  | _ => none
                | _ => none
              | _ => none
            | _ => none
          | _ => none
        | _ => none
      | _ => none
    | _ => none
  | _ => none

def fromisoformat (s : String) : Option PyDateTime := fromisoChars s.data

def hexDigitChar (n : Nat) : Char :=
  Char.ofNat (if n < 10 then 48 + n else 87 + n)

def hex4 (n : Nat) : List Char :=
  [hexDigitChar (n / 4096 % 16), hexDigitChar (n / 256 % 16),
   hexDigitChar (n / 16 % 16), hexDigitChar (n % 16)]

/-- One character of `json.dumps` output with `ensure_ascii=True`. -/
def escapeChar (c : Char) : List Char :=
  if c = '"' then ['\\', '"']
  else if c = '\\' then ['\\', '\\']
  else if c = Char.ofNat 8 then ['\\', 'b']
  else if c = Char.ofNat 9 then ['\\', 't']
  else if c = Char.ofNat 10 then ['\\', 'n']
  else if c = Char.ofNat 12 then ['\\', 'f']
  else if c = Char.ofNat 13 then ['\\', 'r']
  else if c.toNat < 32 ∨ 126 < c.toNat then
    if c.toNat < 65536 then '\\' :: 'u' :: hex4 c.toNat
    else
      '\\' :: 'u' :: (hex4 (55296 + (c.toNat - 65536) / 1024) ++
        ('\\' :: 'u' :: hex4 (56320 + (c.toNat - 65536) % 1024)))
  else [c]

/-- The characters of a serialized string, including the closing quote. -/
def encodeStringBody : List Char → List Char
  | [] => ['"']
  | c :: cs => escapeChar c ++ encodeStringBody cs

def encodeItems : List String → List Char
  | [] => [']']
  | [s] => '"' :: (encodeStringBody s.data ++ [']'])
  | s :: s' :: rest =>
    '"' :: (encodeStringBody s.data ++ ',' :: ' ' :: encodeItems (s' :: rest))

/-- Models `json.dumps` on a list of strings. -/
def json_dumps (l : List String) : String := String.mk ('[' :: encodeItems l)

def isJsonWs (c : Char) : Bool :=
  c = ' ' || c = Char.ofNat 9 || c = Char.ofNat 10 || c = Char.ofNat 13

def hexVal (c : Char) : Option Nat :=
  if 48 ≤ c.toNat ∧ c.toNat ≤ 57 then some (c.toNat - 48)
  else if 97 ≤ c.toNat ∧ c.toNat ≤ 102 then some (c.toNat - 87)
  else if 65 ≤ c.toNat ∧ c.toNat ≤ 70 then some (c.toNat - 55)
  else none

/-- Decoder state for JSON texts denoting arrays of strings.  The current
string is accumulated in reverse; the finished strings likewise. -/
inductive JState where
  | start : JState
  | elemOrClose : List String → JState
  | nextElem : List String → JState
  | strNorm : List Char → List String → JState
  | strEsc : List Char → List String → JState
  | strHex : Nat → Nat → List Char → List String → JState
  | pairSlash : Nat → List Char → List String → JState
  | pairU : Nat → List Char → List String → JState
  | pairHex : Nat → Nat → Nat → List Char → List String → JState
  | afterStr : List String → JState
  | closed : List String → JState
deriving DecidableEq

def jsonStep : JState → Char → Option JState
  | .start, c =>
    if c = '[' then some (.elemOrClose []) else if isJsonWs c then some .start else none
  | .elemOrClose acc, c =>
    if c = ']' then some (.closed acc)
    else if c = '"' then some (.strNorm [] acc)
    else if isJsonWs c then some (.elemOrClose acc) else none
  | .nextElem acc, c =>
    if c = '"' then some (.strNorm [] acc)
    else if isJsonWs c then some (.nextElem acc) else none
  | .strNorm cur acc, c =>
    if c = '"' then some (.afterStr (String.mk cur.reverse :: acc))
    else if c = '\\' then some (.strEsc cur acc)
    else if c.toNat < 32 then none
    else some (.strNorm (c :: cur) acc)
  | .strEsc cur acc, c =>
    if c = '"' then some (.strNorm ('"' :: cur) acc)
    else if c = '\\' then some (.strNorm ('\\' :: cur) acc)
    else if c = '/' then some (.strNorm ('/' :: cur) acc)
    else if c = 'b' then some (.strNorm (Char.ofNat 8 :: cur) acc)
    else if c = 'f' then some (.strNorm (Char.ofNat 12 :: cur) acc)
    else if c = 'n' then some (.strNorm (Char.ofNat 10 :: cur) acc)
    else if c = 'r' then some (.strNorm (Char.ofNat 13 :: cur) acc)
    else if c = 't' then some (.strNorm (Char.ofNat 9 :: cur) acc)
    else if c = 'u' then some (.strHex 4 0 cur acc)
    else none
  | .strHex k v cur acc, c =>
    match hexVal c with
    | none => none
    | some d =>
      if k = 1 then
        if 55296 ≤ v * 16 + d ∧ v * 16 + d ≤ 56319 then
          some (.pairSlash (v * 16 + d) cur acc)
        else if 56320 ≤ v * 16 + d ∧ v * 16 + d ≤ 57343 then none
        else some (.strNorm (Char.ofNat (v * 16 + d) :: cur) acc)
      else some (.strHex (k - 1) (v * 16 + d) cur acc)
  | .pairSlash hi cur acc, c => if c = '\\' then some (.pairU hi cur acc) else none
  | .pairU hi cur acc, c => if c = 'u' then some (.pairHex hi 4 0 cur acc) else none
  | .pairHex hi k v cur acc, c =>
    match hexVal c with
    | none => none
    | some d =>
      if k = 1 then
        if 56320 ≤ v * 16 + d ∧ v * 16 + d ≤ 57343 then
          some (.strNorm
            (Char.ofNat ((hi - 55296) * 1024 + (v * 16 + d - 56320) + 65536) :: cur) acc)
        else none
      else some (.pairHex hi (k - 1) (v * 16 + d) cur acc)
  | .afterStr acc, c =>
    if c = ',' then some (.nextElem acc)
    else if c = ']' then some (.closed acc)
    else if isJsonWs c then some (.afterStr acc) else none
  | .closed acc, c => if isJsonWs c then some (.closed acc) else none

def jsonScan : JState → List Char → Option (List String)
  | st, [] => match st with | .closed acc => some acc.reverse | _ => none
  | st, c :: l =>
    match jsonStep st c with
    | some st' => jsonScan st' l
    | none => none

/-- Models `json.loads` restricted to JSON texts denoting arrays of strings — the only
shape this repository writes into its array columns and the shape their type
annotations declare.  Other JSON texts are treated as decode failures (Python
would accept some of them and produce non-list-of-string values, which no code
path in the claims exercises; Python strings can also carry lone surrogates,
which Lean strings cannot — such texts likewise map to failure here). -/
def json_loads_strings (s : String) : Option (List String) := jsonScan .start s.data

inductive PyErr where
  | valueError : String → PyErr
  | runtimeError : String → PyErr
  | integrityError : String → PyErr
  | fileNotFoundError : String → PyErr
deriving DecidableEq

inductive GameStatus where
  | not_played
  | playing
  | completed
  | on_hold
  | dropped
  | backlog
deriving DecidableEq

def GameStatus.value : GameStatus → String
  | .not_played => "not_played"
  | .playing => "playing"
  | .completed => "completed"
  | .on_hold => "on_hold"
  | .dropped => "dropped"
  | .backlog => "backlog"

/-- Models `GameStatus(s)`: enum lookup by value; raises `ValueError` on anything else. -/
def GameStatus.ofValue (s : String) : Option GameStatus :=
  if s = "not_played" then some .not_played
  else if s = "playing" then some .playing
  else if s = "completed" then some .completed
  else if s = "on_hold" then some .on_hold
  else if s = "dropped" then some .dropped
  else if s = "backlog" then some .backlog
  else none

structure Tag where
  id : Option Int
  name : String
deriving DecidableEq

/-- Models `Tag.__init__(name, id=None)` — no validation. -/
def Tag.init (name : String) (id : Option Int) : Tag := ⟨id, name⟩

structure Game where
  game_id : String
  name : String
  summary : Option String
  release_date : Option PyDateTime
  genres : Option (List String)
  platforms : Option (List String)
  cover_url : Option String
  screenshots : Option (List String)
  developer : Option String
  publisher : Option String
  rating : Option PyFloat
  metacritic_score : Option Int
  created_at : Option PyDateTime
  updated_at : Option PyDateTime
deriving DecidableEq

/-- Models `Game.__init__`: rejects an empty id, then an empty name. -/
def Game.init (id name : String) (summary : Option String)
    (release_date : Option PyDateTime) (genres platforms : Option (List String))
    (cover_url : Option String) (screenshots : Option (List String))
    (developer publisher : Option String) (rating : Option PyFloat)
    (metacritic_score : Option Int) (created_at updated_at : Option PyDateTime) :
    Except PyErr Game :=
  if id = "" then .error (.valueError "game_id must not empty.")
  else if name = "" then .error (.valueError "name must not empty.")
  else .ok ⟨id, name, summary, release_date, genres, platforms, cover_url,
    screenshots, developer, publisher, rating, metacritic_score, created_at, updated_at⟩

structure UserGame where
  game : Game
  tags : List Tag
  id : Option Int
  status : GameStatus
  user_rating : Option Int
  user_review : Option String
  played_time : Int
  date_added : PyDateTime
  date_started : Option PyDateTime
  date_completed : Option PyDateTime
  last_played : Option PyDateTime
  notes : Option String
deriving DecidableEq

/-- Models `UserGame.__init__`: rejects an empty tag list, then a negative
`played_time`; `date_added` defaults to `datetime.now()`, supplied here as the
explicit `now` argument. -/
def UserGame.init (game : Game) (tags : List Tag) (id : Option Int)
    (status : GameStatus) (user_rating : Option Int) (user_review : Option String)
    (played_time : Int) (date_added : Option PyDateTime)
    (date_started date_completed last_played : Option PyDateTime)
    (notes : Option String) (now : PyDateTime) : Except PyErr UserGame :=
  if tags = [] then .error (.valueError "Tags must not empty.")
  else if played_time < 0 then .error (.valueError "played_time must larger than 0.")
  else .ok ⟨game, tags, id, status, user_rating, user_review, played_time,
    date_added.getD now, date_started, date_completed, last_played, notes⟩

/-- Models `UserGame.has_tag_by_name`: case-insensitive name containment. -/
def UserGame.has_tag_by_name (u : UserGame) (tag_name : String) : Bool :=
  u.tags.any (fun t => pyLower t.name == pyLower tag_name)

/-- Models `UserGame.add_tag`: appends and returns `True` when no tag with that
(case-insensitive) name is present; otherwise returns `False` unchanged. -/
def UserGame.add_tag (u : UserGame) (t : Tag) : Bool × UserGame :=
  if ¬ u.has_tag_by_name t.name then (true, { u with tags := u.tags ++ [t] })
  else (false, u)

/-- Models `UserGame.add_tags`: folds `add_tag`, counting the additions. -/
def UserGame.add_tags (u : UserGame) (ts : List Tag) : Nat × UserGame :=
  ts.foldl (fun p t =>
    let r := p.2.add_tag t
    (if r.1 then p.1 + 1 else p.1, r.2)) (0, u)

/-- Models `UserGame.clear_tags`: empties the tag list (the non-empty invariant is
enforced at construction only). -/
def UserGame.clear_tags (u : UserGame) : Nat × UserGame :=
  (u.tags.length, { u with tags := [] })

/-! ## `src/src/data/game_database.py`: serialization helpers -/

/-- Models `DatabaseManager._serialize_json_field`: `None` for a falsy value (both
`None` and the empty list), else the JSON text. -/
def serialize_json_field (value : Option (List String)) : Option String :=
  match value with
  | none => none
  | some [] => none
  | some l => some (json_dumps l)

/-- Models `DatabaseManager._parse_json_field`: `None` for a falsy value (both `None`
and the empty string), `None` on a decode failure, else the decoded list. -/
def parse_json_field (value : Option String) : Option (List String) :=
  match value with
  | none => none
  | some s => if s = "" then none else json_loads_strings s

/-- Models `DatabaseManager._datetime_to_str`. -/
def datetime_to_str (value : Option PyDateTime) : Option String :=
  value.map datetime_isoformat

/-- One row of the `user_games` table.  Every column except the rowid is
carried as an `Option` so that rows violating the schema's NOT NULL
constraints (the "corrupted database" scenarios) are representable. -/
structure Row where
  id : Int
  game_id : Option String
  name : Option String
  summary : Option String
  release_date : Option String
  genres : Option String
  platforms : Option String
  cover_url : Option String
  screenshots : Option String
  developer : Option String
  publisher : Option String
  rating : Option PyFloat
  metacritic_score : Option Int
  created_at : Option String
  updated_at : Option String
  status : Option String
  tags : Option String
  user_rating : Option Int
  user_review : Option String
  played_time : Option Int
  date_added : Option String
  date_started : Option String
  date_completed : Option String
  last_played : Option String
  notes : Option String
deriving DecidableEq

/-- The tuple bound by the INSERT of `add_user_game` (and identically by the
UPDATE of `update_user_game`), written into a row with rowid `rowid`.  Note
that for `tags` only the names are serialized. -/
def user_game_row (rowid : Int) (ug : UserGame) : Row :=
  { id := rowid
    game_id := some ug.game.game_id
    name := some ug.game.name
    summary := ug.game.summary
    release_date := datetime_to_str ug.game.release_date
    genres := serialize_json_field ug.game.genres
    platforms := serialize_json_field ug.game.platforms
    cover_url := ug.game.cover_url
    screenshots := serialize_json_field ug.game.screenshots
    developer := ug.game.developer
    publisher := ug.game.publisher
    rating := ug.game.rating
    metacritic_score := ug.game.metacritic_score
    created_at := datetime_to_str ug.game.created_at
    updated_at := datetime_to_str ug.game.updated_at
    status := some ug.status.value
    tags := serialize_json_field (some (ug.tags.map Tag.name))
    user_rating := ug.user_rating
    user_review := ug.user_review
    played_time := some ug.played_time
    date_added := datetime_to_str (some ug.date_added)
    date_started := datetime_to_str ug.date_started
    date_completed := datetime_to_str ug.date_completed
    last_played := datetime_to_str ug.last_played
    notes := ug.notes }

/-- The `user_games` table. -/
structure DB where
  rows : List Row
deriving DecidableEq

def DB.empty : DB := ⟨[]⟩

/-- The rowid SQLite assigns to the next insert (`INTEGER PRIMARY KEY`:
one more than the largest rowid in use). -/
def DB.nextId (db : DB) : Int := 1 + db.rows.foldl (fun m r => max m r.id) 0

/-! ## `GameCollectionManager` operations

Each operation returns its Python result (or raised exception) together with
the table afterwards; a raised exception aborts the statement before the
commit, so the table is returned unchanged in every error case. -/

/-- The `if id is None: raise RuntimeError(...)` check `add_user_game`
performs on `cursor.lastrowid` after the insert. -/
def add_user_game_check_lastrowid (lastrowid : Option Int) : Except PyErr Int :=
  match lastrowid with
  | none => .error (.runtimeError "Failed to insert game: no ID returned")
  | some i => .ok i

/-- Models `GameCollectionManager.add_user_game`: one INSERT.  SQLite enforces the
NOT NULL column constraints (of the bound values only `tags` can be NULL,
when the tag list is empty) and the `UNIQUE(game_id)` table constraint;
otherwise the row is appended and `cursor.lastrowid` — the fresh rowid —
is checked and returned. -/
def add_user_game (db : DB) (ug : UserGame) : Except PyErr Int × DB :=
  let row := user_game_row db.nextId ug
  if row.tags = none then
    (.error (.integrityError "NOT NULL constraint failed: user_games.tags"), db)
  else if db.rows.any (fun r => r.game_id == some ug.game.game_id) then
    (.error (.integrityError "UNIQUE constraint failed: user_games.game_id"), db)
  else
    (add_user_game_check_lastrowid (some row.id), ⟨db.rows ++ [row]⟩)

def parse_dt_required (s : String) : Except PyErr PyDateTime :=
  match fromisoformat s with
  | some d => .ok d
  | none => .error (.valueError ("Invalid isoformat string: " ++ s))

/-- Models `datetime.fromisoformat(x) if x else None`: both `None` and the empty
string are falsy and map to `None` without parsing. -/
def parse_dt_optional (value : Option String) : Except PyErr (Option PyDateTime) :=
  match value with
  | none => .ok none
  | some s => if s = "" then .ok none else (parse_dt_required s).map some

def GameStatus.parse (s : String) : Except PyErr GameStatus :=
  match GameStatus.ofValue s with
  | some g => .ok g
  | none => .error (.valueError ("'" ++ s ++ "' is not a valid GameStatus"))

/-- The first half of `_row_to_user_game`: the NULL checks on `game_id` and
`name`, then the construction of the `Game` (whose argument list parses
`release_date`, the JSON array columns, `created_at` and `updated_at` before
`Game.__init__` validates the strings). -/
def row_game (row : Row) : Except PyErr Game :=
  match row.game_id with
  | none => .error (.valueError "game_id cannot be NULL in database, database is corrupted.")
  | some gid =>
    match row.name with
    | none => .error (.valueError "name cannot be NULL in database, database is corrupted.")
    | some nm => do
      let rd ← parse_dt_optional row.release_date
      let ca ← parse_dt_optional row.created_at
      let ua ← parse_dt_optional row.updated_at
      Game.init gid nm row.summary rd (parse_json_field row.genres)
        (parse_json_field row.platforms) row.cover_url
        (parse_json_field row.screenshots) row.developer row.publisher
        row.rating row.metacritic_score ca ua

/-- The tag stage of `_row_to_user_game`: decode, reject falsy (NULL, empty
or undecodable) results, materialize `Tag` objects carrying only names. -/
def row_tags (row : Row) : Except PyErr (List Tag) :=
  match parse_json_field row.tags with
  | none => .error (.valueError "Tags cannot be NULL or empty in database, database is corrupted.")
  | some [] => .error (.valueError "Tags cannot be NULL or empty in database, database is corrupted.")
  | some names => .ok (names.map (fun n => Tag.init n none))

/-- Models `GameCollectionManager._row_to_user_game`, in source order: game part,
tag part, the three NULL checks, then the `UserGame(...)` argument list
(status parse, `date_added` parse, optional date parses) and
`UserGame.__init__` validation. -/
def row_to_user_game (row : Row) : Except PyErr UserGame := do
  let game ← row_game row
  let tags ← row_tags row
  match row.date_added with
  | none => .error (.valueError "date_added cannot be NULL in database, database is corrupted.")
  | some da_s =>
    match row.status with
    | none => .error (.valueError "status cannot be NULL in database, database is corrupted.")
    | some st_s =>
      match row.played_time with
      | none => .error (.valueError "played_time cannot be NULL in database, database is corrupted.")
      | some pt => do
        let status ← GameStatus.parse st_s
        let da ← parse_dt_required da_s
        let ds ← parse_dt_optional row.date_started
        let dc ← parse_dt_optional row.date_completed
        let lp ← parse_dt_optional row.last_played
        UserGame.init game tags (some row.id) status row.user_rating
          row.user_review pt (some da) ds dc lp row.notes da

/-- Models `GameCollectionManager.get_user_game_by_game_id`: point lookup, `None`
for a missing key. -/
def get_user_game_by_game_id (db : DB) (game_id : String) :
    Except PyErr (Option UserGame) :=
  match db.rows.find? (fun r => r.game_id == some game_id) with
  | some row => (row_to_user_game row).map some
  | none => .ok none

/-- Models `GameCollectionManager.update_user_game`: `False` without touching the
table when the record has no internal id; otherwise an UPDATE of all columns
of the row with that rowid.  When a row matches, SQLite enforces the NOT NULL
and `UNIQUE(game_id)` constraints against the new values; `cursor.rowcount`
reports whether a row matched. -/
def update_user_game (db : DB) (ug : UserGame) : Except PyErr Bool × DB :=
  match ug.id with
  | none => (.ok false, db)
  | some i =>
    let row := user_game_row i ug
    if ¬ db.rows.any (fun r => r.id == i) then (.ok false, db)
    else if row.tags = none then
      (.error (.integrityError "NOT NULL constraint failed: user_games.tags"), db)
    else if db.rows.any (fun r => !(r.id == i) && r.game_id == some ug.game.game_id) then
      (.error (.integrityError "UNIQUE constraint failed: user_games.game_id"), db)
    else (.ok true, ⟨db.rows.map (fun r => if r.id == i then row else r)⟩)

/-- Models `ORDER BY date_added DESC` uses binary (code-point) comparison of the
TEXT values, with NULLs sorting last in descending order. -/
def date_key_lt (a b : Option String) : Bool :=
  match a, b with
  | none, none => false
  | none, some _ => true
  | some _, none => false
  | some x, some y => decide (x < y)

def insert_desc (r : Row) : List Row → List Row
  | [] => [r]
  | x :: xs => if date_key_lt x.date_added r.date_added then r :: x :: xs else x :: insert_desc r xs

def sort_by_date_desc (rows : List Row) : List Row := rows.foldr insert_desc []

/-- The row-to-object conversion applied to each fetched row in source order;
the first failure propagates. -/
def convert_rows : List Row → Except PyErr (List UserGame)
  | [] => .ok []
  | r :: rs => do
    let u ← row_to_user_game r
    let us ← convert_rows rs
    .ok (u :: us)

/-- Models `GameCollectionManager.load_all_user_games`. -/
def load_all_user_games (db : DB) : Except PyErr (List UserGame) :=
  convert_rows (sort_by_date_desc db.rows)

/-- Models `GameCollectionManager.get_user_games_by_status`. -/
def get_user_games_by_status (db : DB) (status : GameStatus) :
    Except PyErr (List UserGame) :=
  convert_rows (sort_by_date_desc (db.rows.filter (fun r => r.status == some status.value)))

/-- SQLite `LIKE` comparison of a pattern character with a text character:
case-insensitive on ASCII only. -/
def charLikeEq (p c : Char) : Bool := asciiLowerChar p == asciiLowerChar c

def anySuffix (f : List Char → Bool) : List Char → Bool
  | [] => f []
  | c :: s => f (c :: s) || anySuffix f s

/-- SQLite `LIKE`: `%` matches any character sequence, `_` any single
character, everything else ASCII-case-insensitively. -/
def likeMatch (p : List Char) : List Char → Bool :=
  match p with
  | [] => fun s => s.isEmpty
  | '%' :: p1 => fun s => anySuffix (likeMatch p1) s
  | '_' :: p1 => fun s =>
    match s with
    | [] => false
    | _ :: s1 => likeMatch p1 s1
  | pc :: p1 => fun s =>
    match s with
    | [] => false
    | sc :: s1 => charLikeEq pc sc && likeMatch p1 s1

/-- The pattern `f'%"{tag_name}"%'` bound by `get_user_games_by_tag`. -/
def like_tag_query (tag_name : String) : List Char :=
  '%' :: '"' :: (tag_name.data ++ ['"', '%'])

/-- The `tags LIKE ?` pre-filter (NULL never matches `LIKE`). -/
def tags_like (tag_name : String) (r : Row) : Bool :=
  match r.tags with
  | none => false
  | some s => likeMatch (like_tag_query tag_name) s.data

/-- The rows the pre-filtering SELECT of `get_user_games_by_tag` returns. -/
def tag_query_rows (db : DB) (tag_name : String) : List Row :=
  sort_by_date_desc (db.rows.filter (tags_like tag_name))

/-- Models `GameCollectionManager.get_user_games_by_tag`: LIKE pre-filter, convert
every fetched row, then keep the exact case-insensitive matches. -/
def get_user_games_by_tag (db : DB) (tag_name : String) :
    Except PyErr (List UserGame) := do
  let us ← convert_rows (tag_query_rows db tag_name)
  .ok (us.filter (fun u => u.has_tag_by_name tag_name))

/-! ## Configuration stores

Python values that flow through configuration dicts.  Environments are maps
from variable names to optional string values; a parsed JSON configuration
file is a dict of section dicts. -/

inductive PyVal where
  | str : String → PyVal
  | int : Int → PyVal
deriving DecidableEq

abbrev EnvMap := String → Option String

abbrev SectionDict := List (String × PyVal)

abbrev FileDict := List (String × SectionDict)

def lookupKey (l : SectionDict) (k : String) : Option PyVal :=
  (l.find? (fun kv => kv.1 == k)).map Prod.snd

/-- Models `config_dict.get(section, {})`. -/
def dict_get_section (d : FileDict) (k : String) : SectionDict :=
  ((d.find? (fun kv => kv.1 == k)).map Prod.snd).getD []

/-! ### Strict variant: `src/src/utils/config_manager.py` -/

def DATABASE_FILE : String := "../../database/data.db"

def HOST : String := "0.0.0.0"

def PORT : Int := 8000

structure IGDBConfig where
  client_id : String
  client_secret : String
  auth_token : String
  token_timestamp : PyVal
  data_refresh_limit : PyVal
deriving DecidableEq

/-- Models `IGDBConfig.__init__` of the strict variant: the non-sensitive fields come
from the config dict (any other dict key is swallowed by `**kwargs` and
ignored); the credentials come exclusively from the environment, each missing
variable raising a `ValueError` in source order. -/
def IGDBConfig.init (env : EnvMap) (igdb_data : SectionDict) : Except PyErr IGDBConfig :=
  let ts := (lookupKey igdb_data "token_timestamp").getD (.str "")
  let lim := (lookupKey igdb_data "data_refresh_limit").getD (.int 1)
  match env "IGDB_CLIENT_ID" with
  | none => .error (.valueError "IGDB_CLIENT_ID environment variable is required")
  | some cid =>
    match env "IGDB_CLIENT_SECRET" with
    | none => .error (.valueError "IGDB_CLIENT_SECRET environment variable is required")
    | some csec =>
      match env "IGDB_AUTH_TOKEN" with
      | none => .error (.valueError "IGDB_AUTH_TOKEN environment variable is required")
      | some atok => .ok ⟨cid, csec, atok, ts, lim⟩

/-- The strict variant's configuration snapshot.  `server` and `database`
carry only fixed constants (`HOST`, `PORT`, `DATABASE_FILE`); the
directory-ensure side effect of `DatabaseConfig.__init__` is a filesystem
action outside this model. -/
structure ConfigData where
  igdb : IGDBConfig
  host : String
  port : Int
  db_file : String
deriving DecidableEq

/-- Models `ConfigData.__init__(config_dict)`. -/
def ConfigData.init (env : EnvMap) (config_dict : FileDict) : Except PyErr ConfigData := do
  let igdb ← IGDBConfig.init env (dict_get_section config_dict "igdb")
  .ok ⟨igdb, HOST, PORT, DATABASE_FILE⟩

/-- What `ConfigData.to_dict` serializes: only the two non-sensitive igdb
fields vary (credentials are never written; the other sections are emitted
empty). -/
structure SavedDict where
  igdb_token_timestamp : PyVal
  igdb_data_refresh_limit : PyVal
deriving DecidableEq

def ConfigData.to_dict (c : ConfigData) : SavedDict :=
  ⟨c.igdb.token_timestamp, c.igdb.data_refresh_limit⟩

/-- The mutable state of the `ConfigManager` singleton: the in-memory
snapshot and the JSON file contents last persisted. -/
structure ConfigState where
  config : Option ConfigData
  savedFile : Option SavedDict
deriving DecidableEq

/-- Models `ConfigManager._load_config`: reads the JSON file (absent file raises
`FileNotFoundError`) and builds `ConfigData`. -/
def config_manager_load (env : EnvMap) (file : Option FileDict) : Except PyErr ConfigData :=
  match file with
  | none => .error (.fileNotFoundError "Configuration file not found")
  | some d => ConfigData.init env d

/-- Models `ConfigManager.get_config("igdb")`. -/
def get_config_igdb (st : ConfigState) : Except PyErr IGDBConfig :=
  match st.config with
  | none => .error (.runtimeError "Configuration not loaded. Call _load_config() first.")
  | some c => .ok c.igdb

def VALID_UPDATE_SECTIONS : List String := ["igdb", "server", "database"]

/-- Models `_UPDATABLE_FIELDS`: only the igdb section has updatable fields. -/
def allowedFields (sec : String) : List String :=
  if sec = "igdb" then ["token_timestamp", "data_refresh_limit"] else []

/-- Models `setattr(config_obj, key, value)` for the keys reachable through the
allow-list (all on the igdb section). -/
def setSectionField (c : ConfigData) (sec k : String) (v : PyVal) : ConfigData :=
  if sec = "igdb" then
    if k = "token_timestamp" then { c with igdb := { c.igdb with token_timestamp := v } }
    else if k = "data_refresh_limit" then { c with igdb := { c.igdb with data_refresh_limit := v } }
    else c
  else c

def joinComma : List String → String
  | [] => ""
  | [s] => s
  | s :: rest => s ++ ", " ++ joinComma rest

/-- The `ValueError` message of `update_config` for a disallowed field (the
model fixes the declaration order for the set join Python leaves
unspecified; no theorem depends on this text). -/
def fieldErrMsg (k sec : String) : String :=
  "Field '" ++ k ++ "' is not updatable in section '" ++ sec ++
    "'. Allowed fields: " ++ joinComma (allowedFields sec)

/-- The `for key, value in kwargs.items()` loop of `update_config`, followed
by `save_config` when the loop completes: each field is validated and applied
one at a time, so a raise at a later field leaves the earlier fields applied
to the in-memory snapshot (Python exceptions do not roll mutations back) and
nothing persisted. -/
def apply_update_fields (st : ConfigState) (cfg : ConfigData) (sec : String) :
    List (String × PyVal) → Except PyErr Unit × ConfigState
  | [] => (.ok (), { config := some cfg, savedFile := some cfg.to_dict })
  | (k, v) :: rest =>
    if (allowedFields sec).contains k then
      apply_update_fields st (setSectionField cfg sec k v) sec rest
    else
      (.error (.valueError (fieldErrMsg k sec)), { st with config := some cfg })

/-- Models `ConfigManager.update_config`. -/
def update_config (st : ConfigState) (sec : String) (kwargs : List (String × PyVal)) :
    Except PyErr Unit × ConfigState :=
  match st.config with
  | none => (.error (.runtimeError "Configuration not loaded"), st)
  | some cfg =>
    if ¬ VALID_UPDATE_SECTIONS.contains sec then
      (.error (.valueError ("Unknown configuration section: " ++ sec)), st)
    else apply_update_fields st cfg sec kwargs

/-! ### Lenient variant: `config/HostCart_config.py` (`ConfigLoader`) -/

structure IGDBConfigL where
  client_id : String
  client_secret : String
  auth_token : String
  token_timestamp : PyVal
  data_refresh_limit : PyVal
deriving DecidableEq

/-- Models `IGDBConfig.__init__` of `config/HostCart_config.py`: sets the
non-sensitive fields from the config dict (any `client_id` etc. in the dict
is swallowed by `**kwargs`) and initializes the credentials to the empty
string.  Because the class defines its own `__init__`, the dataclass
decorator does not install a generated `__init__`, and the generated
`__init__` is the only caller of `__post_init__` — so `IGDBConfigL.post_init`
below is dead code and the credentials stay empty. -/
def IGDBConfigL.init (igdb_data : SectionDict) : IGDBConfigL :=
  { client_id := "", client_secret := "", auth_token := "",
    token_timestamp := (lookupKey igdb_data "token_timestamp").getD (.str ""),
    data_refresh_limit := (lookupKey igdb_data "data_refresh_limit").getD (.int 1) }

/-- Models `IGDBConfig.__post_init__` of `config/HostCart_config.py` as written
(environment override of the credentials).  Never invoked — see
`IGDBConfigL.init`. -/
def IGDBConfigL.post_init (env : EnvMap) (c : IGDBConfigL) : IGDBConfigL :=
  { c with
    client_id := (env "IGDB_CLIENT_ID").getD c.client_id,
    client_secret := (env "IGDB_CLIENT_SECRET").getD c.client_secret,
    auth_token := (env "IGDB_AUTH_TOKEN").getD c.auth_token }

/-- The sections of the lenient variant's snapshot that the claims touch
(its `web_ui`, `security` and `platforms` sections are omitted — no claim
exercises them). -/
structure LoaderConfig where
  igdb : IGDBConfigL
  db_file : String
  host : String
  port : Int
deriving DecidableEq

def lookupStr (d : SectionDict) (k : String) (dflt : String) : String :=
  match lookupKey d k with
  | some (.str s) => s
  | _ => dflt

/-- Models `ConfigLoader._load_config` followed by `_load_env_overrides`: builds the
sections from the file dict, then overrides `db_file`/`host`/`port` from
`DATABASE_FILE`/`SERVER_HOST`/`SERVER_PORT` when those are set and truthy
(the walrus-`if` treats an empty value as unset); `int(port)` raises on a
non-numeric value. -/
def loader_load (env : EnvMap) (file : Option FileDict) : Except PyErr LoaderConfig :=
  match file with
  | none => .error (.fileNotFoundError "Configuration file not found")
  | some d =>
    let igdb := IGDBConfigL.init (dict_get_section d "igdb")
    let db0 := lookupStr (dict_get_section d "database") "db_file" ""
    let host0 := lookupStr (dict_get_section d "server") "host" "0.0.0.0"
    let port0 : Int :=
      match lookupKey (dict_get_section d "server") "port" with
      | some (.int i) => i
      | _ => 8000
    let db1 := match env "DATABASE_FILE" with
      | some s => if s = "" then db0 else s
      | none => db0
    let host1 := match env "SERVER_HOST" with
      | some s => if s = "" then host0 else s
      | none => host0
    match env "SERVER_PORT" with
    | some s =>
      if s = "" then .ok ⟨igdb, db1, host1, port0⟩
      else
        match s.toInt? with
        | some i => .ok ⟨igdb, db1, host1, i⟩
        | none => .error (.valueError ("invalid literal for int() with base 10: " ++ s))
    | none => .ok ⟨igdb, db1, host1, port0⟩

instance {ε α : Type} [DecidableEq ε] [DecidableEq α] : DecidableEq (Except ε α) :=
  fun x y =>
    match x, y with
    | .ok a, .ok b =>
      if h : a = b then isTrue (congrArg Except.ok h)
      else isFalse (fun hc => h (Except.ok.inj hc))
    | .error a, .error b =>
      if h : a = b then isTrue (congrArg Except.error h)
      else isFalse (fun hc => h (Except.error.inj hc))
    | .ok _, .error _ => isFalse (fun hc => Except.noConfusion hc)
    | .error _, .ok _ => isFalse (fun hc => Except.noConfusion hc)

/-! ## Validity notions used by the claims -/

/-- The claim's notion of a valid `UserGame`: non-empty tags, non-negative
played time, a `Game` with non-empty id and name — plus the range invariants
every Python `datetime` object carries by construction. -/
def UserGame.Valid (ug : UserGame) : Prop :=
  ug.tags ≠ [] ∧ 0 ≤ ug.played_time ∧ ug.game.game_id ≠ "" ∧ ug.game.name ≠ "" ∧
  ug.date_added.valid = true ∧
  (∀ d ∈ ug.game.release_date, d.valid = true) ∧
  (∀ d ∈ ug.game.created_at, d.valid = true) ∧
  (∀ d ∈ ug.game.updated_at, d.valid = true) ∧
  (∀ d ∈ ug.date_started, d.valid = true) ∧
  (∀ d ∈ ug.date_completed, d.valid = true) ∧
  (∀ d ∈ ug.last_played, d.valid = true)

/-- No two tags with case-insensitively equal names. -/
def TagNamesDistinct (u : UserGame) : Prop :=
  u.tags.Pairwise (fun a b => pyLower a.name ≠ pyLower b.name)

/-- Equality "modulo sub-second timestamp truncation and the
storage-assigned internal id": forget the internal id and the microsecond
field of every timestamp. -/
def truncSec (d : PyDateTime) : PyDateTime := { d with microsecond := 0 }

def modulo_id_and_subsecond (u : UserGame) : UserGame :=
  { u with
    id := none,
    date_added := truncSec u.date_added,
    date_started := u.date_started.map truncSec,
    date_completed := u.date_completed.map truncSec,
    last_played := u.last_played.map truncSec,
    game := { u.game with
      release_date := u.game.release_date.map truncSec,
      created_at := u.game.created_at.map truncSec,
      updated_at := u.game.updated_at.map truncSec } }

/-! ## Concrete fixtures used by counterexamples and witnesses -/

def dt2023 : PyDateTime := ⟨2023, 1, 15, 10, 30, 45, 0⟩

def gameG1 : Game :=
  ⟨"g1", "Test", none, none, none, none, none, none, none, none, none, none, none, none⟩

def gameG2 : Game :=
  ⟨"g2", "Other", none, none, none, none, none, none, none, none, none, none, none, none⟩

/-- The §8 scenario record: `game_id="g1"`, tags Favorite and Wishlist,
status playing, 120 minutes. -/
def ugFav : UserGame :=
  ⟨gameG1, [⟨none, "Favorite"⟩, ⟨none, "Wishlist"⟩], none, .playing, none, none,
    120, dt2023, none, none, none, none⟩

/-- A valid record whose tag carries a storage id and whose `genres` is the
empty list — the two fields the add/read cycle does not preserve. -/
def ugTagId : UserGame :=
  ⟨{ gameG1 with genres := some [] }, [⟨some 5, "Favorite"⟩], none, .playing,
    none, none, 120, dt2023, none, none, none, none⟩

/-- A record tagged with a name containing a double quote: JSON-escaped in
the stored tag array, hence invisible to the LIKE pre-filter. -/
def ugQuote : UserGame :=
  ⟨gameG1, [⟨none, "a\"b"⟩], none, .not_played, none, none, 0, dt2023,
    none, none, none, none⟩

def ugOther : UserGame :=
  ⟨gameG2, [⟨none, "Backlog stuff"⟩], none, .backlog, none, none, 0, dt2023,
    none, none, none, none⟩

/-- Two-row table holding `g1` (rowid 1) and `g2` (rowid 2). -/
def dbTwo : DB := (add_user_game (add_user_game DB.empty ugFav).2 ugOther).2

/-- The `g2` record re-keyed to `g1`'s external id, with rowid 2: an update
that violates `UNIQUE(game_id)`. -/
def ugCollide : UserGame :=
  { ugOther with id := some 2, game := { gameG2 with game_id := "g1" } }

def cfgLoaded : ConfigData := ⟨⟨"cid", "csec", "atok", .str "", .int 1⟩, HOST, PORT, DATABASE_FILE⟩

def stLoaded : ConfigState := ⟨some cfgLoaded, some cfgLoaded.to_dict⟩

def envFull : EnvMap := fun k =>
  if k = "IGDB_CLIENT_ID" then some "abc"
  else if k = "IGDB_CLIENT_SECRET" then some "defg"
  else if k = "IGDB_AUTH_TOKEN" then some "hij"
  else none

def envNoSecret : EnvMap := fun k =>
  if k = "IGDB_CLIENT_ID" then some "abc"
  else if k = "IGDB_AUTH_TOKEN" then some "hij"
  else none

def fileWithCreds : FileDict :=
  [("igdb", [("token_timestamp", .str "2023-01-01T00:00:00"), ("data_refresh_limit", .int 5),
             ("client_id", .str "file_id"), ("client_secret", .str "file_secret"),
             ("auth_token", .str "file_token")])]

/-! ## Round-trip lemmas: a row written by the INSERT/UPDATE tuple converts
back to the original record -/

def isOkE {ε α : Type} : Except ε α → Bool
  | .ok _ => true
  | .error _ => false

def dbFav : DB := (add_user_game DB.empty ugFav).2

/-! ## Tag-method lemmas (C10 support) -/

def applyFields (cfg : ConfigData) (sec : String) (kws : List (String × PyVal)) : ConfigData :=
  kws.foldl (fun c kv => setSectionField c sec kv.1 kv.2) cfg

/-- C3 counterexample: with the loaded state `stLoaded`,
`update_config("igdb", token_timestamp="x", bogus=1)` raises — but
`token_timestamp` has already been applied to the in-memory configuration
(nothing is persisted), contradicting "leaves the in-memory configuration
completely unmutated". -/
def dbQuote : DB := (add_user_game DB.empty ugQuote).2

/-! ## Theorems -/

theorem decDigitVal_decDigitChar (d : Nat) (h : d < 10) :
    decDigitVal (decDigitChar d) = some d := by
  interval_cases d <;> decide

theorem readFixed_zeroPad (w : Nat) :
    ∀ (acc n : Nat) (l : List Char),
      readFixed w acc (zeroPad w n ++ l) = some (acc * 10 ^ w + n % 10 ^ w, l) := by
  induction w with
  | zero => intro acc n l; simp [readFixed, zeroPad, Nat.mod_one]
  | succ w ih =>
    intro acc n l
    have hd : n / 10 ^ w % 10 < 10 := Nat.mod_lt _ (by norm_num)
    simp only [zeroPad, List.cons_append, readFixed,
      decDigitVal_decDigitChar _ hd]
    rw [show (zeroPad w n).append l = zeroPad w n ++ l from rfl, ih]
    have hsplit : n % 10 ^ (w + 1) = n % 10 ^ w + 10 ^ w * (n / 10 ^ w % 10) := by
      rw [pow_succ, Nat.mod_mul]
    rw [hsplit]; ring_nf

theorem mod_small_pow {n b : Nat} (h : n < b) : n % b = n := Nat.mod_eq_of_lt h

theorem fromisoformat_isoformat (d : PyDateTime) (h : d.valid = true) :
    fromisoformat (datetime_isoformat d) = some d := by
  have hb := h
  simp only [PyDateTime.valid, Bool.and_eq_true, decide_eq_true_eq] at hb
  obtain ⟨⟨⟨⟨⟨⟨⟨⟨⟨hy1, hy2⟩, hm1⟩, hm2⟩, hd1⟩, hd2⟩, hh⟩, hmi⟩, hs⟩, hus⟩ := hb
  have ey : d.year % 10 ^ 4 = d.year := mod_small_pow (by norm_num; omega)
  have em : d.month % 10 ^ 2 = d.month := mod_small_pow (by norm_num; omega)
  have ed : d.day % 10 ^ 2 = d.day := by
    refine mod_small_pow ?_
    have : daysInMonth d.year d.month ≤ 31 := by
      unfold daysInMonth; split <;> [split <;> norm_num; skip]
      split <;> norm_num
    norm_num; omega
  have eh : d.hour % 10 ^ 2 = d.hour := mod_small_pow (by norm_num; omega)
  have emi : d.minute % 10 ^ 2 = d.minute := mod_small_pow (by norm_num; omega)
  have es : d.second % 10 ^ 2 = d.second := mod_small_pow (by norm_num; omega)
  have eus : d.microsecond % 10 ^ 6 = d.microsecond := mod_small_pow (by norm_num; omega)
  by_cases hz : d.microsecond = 0
  · simp only [fromisoformat, datetime_isoformat, isoChars, hz, if_pos rfl]
    show fromisoChars _ = _
    simp only [fromisoChars, List.append_nil, readFixed_zeroPad, Nat.zero_mul,
      Nat.zero_add, ey, em, ed, eh, emi, es]
    simp only [mkChecked]
    have hstruct : (⟨d.year, d.month, d.day, d.hour, d.minute, d.second, 0⟩ : PyDateTime) = d := by
      cases d; simp_all
    simp [hstruct, h]
  · have hne : ¬ d.microsecond = 0 := hz
    simp only [fromisoformat, datetime_isoformat, isoChars, if_neg hne]
    show fromisoChars _ = _
    have : zeroPad 6 d.microsecond = zeroPad 6 d.microsecond ++ [] :=
      (List.append_nil _).symm
    rw [this]
    simp only [fromisoChars, readFixed_zeroPad, Nat.zero_mul, Nat.zero_add,
      ey, em, ed, eh, emi, es, eus]
    simp only [mkChecked]
    have hd' : (⟨d.year, d.month, d.day, d.hour, d.minute, d.second,
        d.microsecond⟩ : PyDateTime) = d := by
      cases d; rfl
    rw [hd', if_pos h]

/-- Models `isoformat` output is never empty (relevant because the row-to-object
conversion treats the empty string as falsy). -/
theorem isoformat_ne_empty (d : PyDateTime) : datetime_isoformat d ≠ "" := by
  simp only [datetime_isoformat, isoChars, zeroPad]
  intro hcon
  have : (String.mk (decDigitChar (d.year / 10 ^ 3 % 10) :: _)).data = ("" : String).data :=
    congrArg String.data hcon
  simp at this

/-! ## JSON serialization of string arrays

`game_database.py` stores `genres`, `platforms`, `screenshots` and `tags` as
`json.dumps` of a list of strings and reads them back with `json.loads`.
`json.dumps` uses its defaults there: `ensure_ascii=True` (every character
outside printable ASCII is `\uXXXX`-escaped, astral characters as surrogate
pairs) and item separator `", "`. -/

theorem hexVal_hexDigitChar (d : Nat) (h : d < 16) :
    hexVal (hexDigitChar d) = some d := by
  interval_cases d <;> decide

theorem scan_strHex4 (n : Nat) (hn : n < 65536) (cur : List Char)
    (acc : List String) (l : List Char) :
    jsonScan (.strHex 4 0 cur acc) (hex4 n ++ l) =
      if 55296 ≤ n ∧ n ≤ 56319 then jsonScan (.pairSlash n cur acc) l
      else if 56320 ≤ n ∧ n ≤ 57343 then none
      else jsonScan (.strNorm (Char.ofNat n :: cur) acc) l := by
  have h3 : n / 4096 % 16 < 16 := Nat.mod_lt _ (by norm_num)
  have h2 : n / 256 % 16 < 16 := Nat.mod_lt _ (by norm_num)
  have h1 : n / 16 % 16 < 16 := Nat.mod_lt _ (by norm_num)
  have h0 : n % 16 < 16 := Nat.mod_lt _ (by norm_num)
  have hE : ((n / 4096 % 16 * 16 + n / 256 % 16) * 16 + n / 16 % 16) * 16 + n % 16 = n := by
    omega
  simp only [hex4, List.cons_append]
  simp only [jsonScan, jsonStep]
  simp [hexVal_hexDigitChar _ h3, hexVal_hexDigitChar _ h2,
    hexVal_hexDigitChar _ h1, hexVal_hexDigitChar _ h0, hE]
  by_cases hA : 55296 ≤ n ∧ n ≤ 56319
  · simp [hA]
  · by_cases hB : 56320 ≤ n ∧ n ≤ 57343 <;> simp [hA, hB]

theorem scan_pairHex4 (hi n : Nat) (hn : n < 65536) (cur : List Char)
    (acc : List String) (l : List Char) :
    jsonScan (.pairHex hi 4 0 cur acc) (hex4 n ++ l) =
      if 56320 ≤ n ∧ n ≤ 57343 then
        jsonScan (.strNorm (Char.ofNat ((hi - 55296) * 1024 + (n - 56320) + 65536) :: cur) acc) l
      else none := by
  have h3 : n / 4096 % 16 < 16 := Nat.mod_lt _ (by norm_num)
  have h2 : n / 256 % 16 < 16 := Nat.mod_lt _ (by norm_num)
  have h1 : n / 16 % 16 < 16 := Nat.mod_lt _ (by norm_num)
  have h0 : n % 16 < 16 := Nat.mod_lt _ (by norm_num)
  have hE : ((n / 4096 % 16 * 16 + n / 256 % 16) * 16 + n / 16 % 16) * 16 + n % 16 = n := by
    omega
  simp only [hex4, List.cons_append]
  simp only [jsonScan, jsonStep]
  simp [hexVal_hexDigitChar _ h3, hexVal_hexDigitChar _ h2,
    hexVal_hexDigitChar _ h1, hexVal_hexDigitChar _ h0, hE]
  by_cases hB : 56320 ≤ n ∧ n ≤ 57343 <;> simp [hB]

theorem char_valid_toNat (c : Char) :
    c.toNat < 55296 ∨ (57343 < c.toNat ∧ c.toNat < 1114112) := by
  have h := c.valid
  rcases h with h | h
  · left
    have : c.val.toNat < 55296 := h
    exact this
  · right
    exact ⟨h.1, h.2⟩

theorem scan_norm_backslash (cur : List Char) (acc : List String) (l : List Char) :
    jsonScan (.strNorm cur acc) ('\\' :: l) = jsonScan (.strEsc cur acc) l := rfl

theorem scan_esc_u (cur : List Char) (acc : List String) (l : List Char) :
    jsonScan (.strEsc cur acc) ('u' :: l) = jsonScan (.strHex 4 0 cur acc) l := rfl

theorem scan_pair_slash (hi : Nat) (cur : List Char) (acc : List String) (l : List Char) :
    jsonScan (.pairSlash hi cur acc) ('\\' :: l) = jsonScan (.pairU hi cur acc) l := rfl

theorem scan_pair_u (hi : Nat) (cur : List Char) (acc : List String) (l : List Char) :
    jsonScan (.pairU hi cur acc) ('u' :: l) = jsonScan (.pairHex hi 4 0 cur acc) l := rfl

theorem scan_norm_plain (c : Char) (h1 : ¬ c = '"') (h2 : ¬ c = '\\')
    (h3 : ¬ c.toNat < 32) (cur : List Char) (acc : List String) (l : List Char) :
    jsonScan (.strNorm cur acc) (c :: l) = jsonScan (.strNorm (c :: cur) acc) l := by
  simp [jsonScan, jsonStep, h1, h2, h3]

theorem scan_escapeChar (c : Char) (cur : List Char) (acc : List String)
    (l : List Char) :
    jsonScan (.strNorm cur acc) (escapeChar c ++ l) =
      jsonScan (.strNorm (c :: cur) acc) l := by
  by_cases h1 : c = '"'
  · subst h1; rfl
  by_cases h2 : c = '\\'
  · subst h2; rfl
  by_cases h3 : c = Char.ofNat 8
  · subst h3; rfl
  by_cases h4 : c = Char.ofNat 9
  · subst h4; rfl
  by_cases h5 : c = Char.ofNat 10
  · subst h5; rfl
  by_cases h6 : c = Char.ofNat 12
  · subst h6; rfl
  by_cases h7 : c = Char.ofNat 13
  · subst h7; rfl
  by_cases h8 : c.toNat < 32 ∨ 126 < c.toNat
  · have hval := char_valid_toNat c
    by_cases h9 : c.toNat < 65536
    · rw [show escapeChar c = '\\' :: 'u' :: hex4 c.toNat by
        simp only [escapeChar, if_neg h1, if_neg h2, if_neg h3, if_neg h4,
          if_neg h5, if_neg h6, if_neg h7, if_pos h8, if_pos h9]]
      rw [List.cons_append, List.cons_append, scan_norm_backslash, scan_esc_u,
        scan_strHex4 _ h9]
      have hns1 : ¬ (55296 ≤ c.toNat ∧ c.toNat ≤ 56319) := by omega
      have hns2 : ¬ (56320 ≤ c.toNat ∧ c.toNat ≤ 57343) := by omega
      rw [if_neg hns1, if_neg hns2, Char.ofNat_toNat]
    · have hlt : c.toNat < 1114112 := by omega
      have hge : 65536 ≤ c.toNat := by omega
      rw [show escapeChar c = '\\' :: 'u' :: (hex4 (55296 + (c.toNat - 65536) / 1024) ++
          ('\\' :: 'u' :: hex4 (56320 + (c.toNat - 65536) % 1024))) by
        simp only [escapeChar, if_neg h1, if_neg h2, if_neg h3, if_neg h4,
          if_neg h5, if_neg h6, if_neg h7, if_pos h8, if_neg h9]]
      rw [List.cons_append, List.cons_append, List.append_assoc,
        scan_norm_backslash, scan_esc_u,
        scan_strHex4 _ (by omega : 55296 + (c.toNat - 65536) / 1024 < 65536)]
      have hhi : 55296 ≤ 55296 + (c.toNat - 65536) / 1024 ∧
          55296 + (c.toNat - 65536) / 1024 ≤ 56319 := by omega
      rw [if_pos hhi, List.cons_append, List.cons_append,
        scan_pair_slash, scan_pair_u,
        scan_pairHex4 _ _ (by omega : 56320 + (c.toNat - 65536) % 1024 < 65536)]
      have hlo : 56320 ≤ 56320 + (c.toNat - 65536) % 1024 ∧
          56320 + (c.toNat - 65536) % 1024 ≤ 57343 := by omega
      rw [if_pos hlo]
      have hcomb : (55296 + (c.toNat - 65536) / 1024 - 55296) * 1024 +
          (56320 + (c.toNat - 65536) % 1024 - 56320) + 65536 = c.toNat := by omega
      rw [hcomb, Char.ofNat_toNat]
  · rw [show escapeChar c = [c] by
      simp only [escapeChar, if_neg h1, if_neg h2, if_neg h3, if_neg h4,
        if_neg h5, if_neg h6, if_neg h7, if_neg h8]]
    rw [List.cons_append, List.nil_append,
      scan_norm_plain c h1 h2 (by omega)]

theorem scan_encodeBody (cs : List Char) :
    ∀ (cur : List Char) (acc : List String) (l : List Char),
      jsonScan (.strNorm cur acc) (encodeStringBody cs ++ l) =
        jsonScan (.afterStr (String.mk (cur.reverse ++ cs) :: acc)) l := by
  induction cs with
  | nil =>
    intro cur acc l
    simp [encodeStringBody, jsonScan, jsonStep]
  | cons c cs ih =>
    intro cur acc l
    rw [encodeStringBody, List.append_assoc, scan_escapeChar, ih]
    simp

theorem scan_items (names : List String) :
    ∀ (st : JState) (acc : List String),
      names ≠ [] → jsonStep st '"' = some (.strNorm [] acc) →
      jsonScan st (encodeItems names) = some (acc.reverse ++ names) := by
  induction names with
  | nil => intro _ _ h; exact absurd rfl h
  | cons s rest ih =>
    intro st acc _ hstep
    cases rest with
    | nil =>
      simp only [encodeItems, jsonScan, hstep]
      rw [scan_encodeBody]
      simp [jsonScan, jsonStep]
    | cons s' rest' =>
      simp only [encodeItems, jsonScan, hstep]
      rw [scan_encodeBody]
      simp only [List.reverse_nil, List.nil_append]
      rw [show jsonScan (.afterStr (String.mk s.data :: acc))
            (',' :: ' ' :: encodeItems (s' :: rest')) =
          jsonScan (.nextElem (String.mk s.data :: acc)) (encodeItems (s' :: rest'))
        from rfl]
      rw [ih (.nextElem (String.mk s.data :: acc)) (String.mk s.data :: acc)
        (by simp) rfl]
      simp

theorem json_loads_dumps (names : List String) :
    json_loads_strings (json_dumps names) = some names := by
  cases names with
  | nil => rfl
  | cons s rest =>
    show jsonScan .start ('[' :: encodeItems (s :: rest)) = _
    simp only [jsonScan, jsonStep]
    norm_num
    rw [scan_items (s :: rest) (.elemOrClose []) [] (by simp) rfl]
    simp

theorem json_dumps_ne_empty (l : List String) : json_dumps l ≠ "" := by
  simp only [json_dumps]
  intro hcon
  have : ('[' :: encodeItems l) = ("" : String).data := congrArg String.data hcon
  simp at this

/-! ## `src/src/data/models.py` -/

/-- The Python exception kinds raised by the modelled code. -/
theorem GameStatus.ofValue_value (g : GameStatus) : GameStatus.ofValue g.value = some g := by
  cases g <;> rfl

theorem except_bind_ok {ε α β : Type} (a : α) (f : α → Except ε β) :
    (Except.ok a : Except ε α) >>= f = f a := rfl

theorem except_bind_error {ε α β : Type} (e : ε) (f : α → Except ε β) :
    (Except.error e : Except ε α) >>= f = .error e := rfl

theorem except_map_ok {ε α β : Type} (a : α) (f : α → β) :
    (Except.ok a : Except ε α).map f = .ok (f a) := rfl

theorem parse_serialize_json (v : Option (List String)) (hv : v ≠ some []) :
    parse_json_field (serialize_json_field v) = v := by
  match v with
  | none => rfl
  | some [] => exact absurd rfl hv
  | some (x :: xs) =>
    show parse_json_field (some (json_dumps (x :: xs))) = some (x :: xs)
    simp only [parse_json_field, if_neg (json_dumps_ne_empty (x :: xs))]
    exact json_loads_dumps (x :: xs)

theorem parse_dt_required_isoformat (d : PyDateTime) (h : d.valid = true) :
    parse_dt_required (datetime_isoformat d) = .ok d := by
  simp [parse_dt_required, fromisoformat_isoformat d h]

theorem parse_dt_optional_roundtrip (o : Option PyDateTime)
    (h : ∀ d ∈ o, d.valid = true) :
    parse_dt_optional (datetime_to_str o) = .ok o := by
  match o with
  | none => rfl
  | some d =>
    have hd := h d rfl
    show parse_dt_optional (some (datetime_isoformat d)) = .ok (some d)
    simp only [parse_dt_optional, if_neg (isoformat_ne_empty d),
      parse_dt_required_isoformat d hd]
    rfl

theorem status_parse_value (g : GameStatus) : GameStatus.parse g.value = .ok g := by
  simp [GameStatus.parse, GameStatus.ofValue_value]

theorem tags_name_roundtrip (ts : List Tag) (hids : ∀ t ∈ ts, t.id = none) :
    (ts.map Tag.name).map (fun n => Tag.init n none) = ts := by
  induction ts with
  | nil => rfl
  | cons t ts ih =>
    simp only [List.map_cons, List.cons.injEq]
    refine ⟨?_, ih (fun x hx => hids x (List.mem_cons_of_mem _ hx))⟩
    have hid := hids t (List.mem_cons_self _ _)
    cases t with
    | mk tid tname => simp only [Tag.init]; simp_all

theorem row_game_roundtrip (i : Int) (ug : UserGame)
    (h3 : ug.game.game_id ≠ "") (h4 : ug.game.name ≠ "")
    (hrd : ∀ d ∈ ug.game.release_date, d.valid = true)
    (hca : ∀ d ∈ ug.game.created_at, d.valid = true)
    (hua : ∀ d ∈ ug.game.updated_at, d.valid = true)
    (hg : ug.game.genres ≠ some []) (hp : ug.game.platforms ≠ some [])
    (hs : ug.game.screenshots ≠ some []) :
    row_game (user_game_row i ug) = .ok ug.game := by
  simp only [row_game, user_game_row]
  rw [parse_dt_optional_roundtrip _ hrd, except_bind_ok,
    parse_dt_optional_roundtrip _ hca, except_bind_ok,
    parse_dt_optional_roundtrip _ hua, except_bind_ok,
    parse_serialize_json _ hg, parse_serialize_json _ hp,
    parse_serialize_json _ hs]
  simp only [Game.init, if_neg h3, if_neg h4]

theorem row_tags_roundtrip (i : Int) (ug : UserGame) (h1 : ug.tags ≠ [])
    (hids : ∀ t ∈ ug.tags, t.id = none) :
    row_tags (user_game_row i ug) = .ok ug.tags := by
  cases hts : ug.tags with
  | nil => exact absurd hts h1
  | cons t ts =>
    have hids' : ∀ x ∈ t :: ts, x.id = none := by rw [← hts]; exact hids
    simp only [row_tags, user_game_row, hts, List.map_cons, serialize_json_field,
      parse_json_field, if_neg (json_dumps_ne_empty _), json_loads_dumps]
    have hmap := tags_name_roundtrip (t :: ts) hids'
    simp only [List.map_cons] at hmap
    rw [hmap]

theorem row_to_user_game_roundtrip (i : Int) (ug : UserGame) (hv : ug.Valid)
    (hids : ∀ t ∈ ug.tags, t.id = none)
    (hg : ug.game.genres ≠ some []) (hp : ug.game.platforms ≠ some [])
    (hs : ug.game.screenshots ≠ some []) :
    row_to_user_game (user_game_row i ug) = .ok { ug with id := some i } := by
  obtain ⟨h1, h2, h3, h4, hda, hrd, hca, hua, hds, hdc, hlp⟩ := hv
  simp only [row_to_user_game]
  rw [row_game_roundtrip i ug h3 h4 hrd hca hua hg hp hs, except_bind_ok,
    row_tags_roundtrip i ug h1 hids, except_bind_ok]
  simp only [user_game_row,
    show ∀ d, datetime_to_str (some d) = some (datetime_isoformat d) from fun _ => rfl]
  rw [status_parse_value, except_bind_ok,
    parse_dt_required_isoformat _ hda, except_bind_ok,
    parse_dt_optional_roundtrip _ hds, except_bind_ok,
    parse_dt_optional_roundtrip _ hdc, except_bind_ok,
    parse_dt_optional_roundtrip _ hlp, except_bind_ok]
  simp only [UserGame.init, if_neg h1, if_neg (by omega : ¬ ug.played_time < 0),
    Option.getD_some]

/-! ## Membership lemmas for the query operations -/

theorem mem_insert_desc (r : Row) (l : List Row) (x : Row) :
    x ∈ insert_desc r l ↔ x = r ∨ x ∈ l := by
  induction l with
  | nil => simp [insert_desc]
  | cons y ys ih =>
    simp only [insert_desc]
    split
    · simp [List.mem_cons]
    · simp only [List.mem_cons, ih]
      tauto

theorem mem_sort_by_date_desc (rows : List Row) (x : Row) :
    x ∈ sort_by_date_desc rows ↔ x ∈ rows := by
  induction rows with
  | nil => simp [sort_by_date_desc]
  | cons r rs ih =>
    simp only [sort_by_date_desc, List.foldr_cons]
    rw [mem_insert_desc]
    rw [show List.foldr insert_desc [] rs = sort_by_date_desc rs from rfl, ih]
    simp [List.mem_cons]

theorem convert_rows_ok_iff {rows : List Row} {us : List UserGame}
    (h : convert_rows rows = .ok us) (u : UserGame) :
    u ∈ us ↔ ∃ r ∈ rows, row_to_user_game r = .ok u := by
  induction rows generalizing us with
  | nil =>
    simp only [convert_rows] at h
    cases h
    simp
  | cons r rs ih =>
    simp only [convert_rows] at h
    cases h1 : row_to_user_game r with
    | error e => rw [h1, except_bind_error] at h; exact absurd h (by simp)
    | ok u0 =>
      rw [h1, except_bind_ok] at h
      cases h2 : convert_rows rs with
      | error e => rw [h2, except_bind_error] at h; exact absurd h (by simp)
      | ok us0 =>
        rw [h2, except_bind_ok] at h
        cases h
        simp only [List.mem_cons]
        constructor
        · rintro (rfl | hu)
          · exact ⟨r, Or.inl rfl, h1⟩
          · obtain ⟨r', hr', hc⟩ := (ih h2).mp hu
            exact ⟨r', Or.inr hr', hc⟩
        · rintro ⟨r', (rfl | hr'), hc⟩
          · left
            have := h1.symm.trans hc
            exact (Except.ok.inj this).symm
          · right
            exact (ih h2).mpr ⟨r', hr', hc⟩

theorem get_by_tag_mem (db : DB) (q : String) (us : List UserGame)
    (h : get_user_games_by_tag db q = .ok us) (u : UserGame) :
    u ∈ us ↔ ((∃ r, r ∈ db.rows ∧ tags_like q r = true ∧ row_to_user_game r = .ok u)
      ∧ u.has_tag_by_name q = true) := by
  simp only [get_user_games_by_tag] at h
  cases hc : convert_rows (tag_query_rows db q) with
  | error e => rw [hc, except_bind_error] at h; exact absurd h (by simp)
  | ok l =>
    rw [hc, except_bind_ok] at h
    cases h
    rw [List.mem_filter, convert_rows_ok_iff hc u]
    constructor
    · rintro ⟨⟨r, hr, hconv⟩, htag⟩
      rw [tag_query_rows, mem_sort_by_date_desc, List.mem_filter] at hr
      exact ⟨⟨r, hr.1, hr.2, hconv⟩, htag⟩
    · rintro ⟨⟨r, hr, hlike, hconv⟩, htag⟩
      refine ⟨⟨r, ?_, hconv⟩, htag⟩
      rw [tag_query_rows, mem_sort_by_date_desc, List.mem_filter]
      exact ⟨hr, hlike⟩

/-! ## Inversion lemmas for successful conversions -/

theorem game_init_ok_inv {id name : String} {summary : Option String}
    {rd : Option PyDateTime} {gen plat : Option (List String)}
    {cov : Option String} {scr : Option (List String)} {dev pub : Option String}
    {rat : Option PyFloat} {met : Option Int} {ca ua : Option PyDateTime}
    {game : Game}
    (h : Game.init id name summary rd gen plat cov scr dev pub rat met ca ua = .ok game) :
    id ≠ "" ∧ name ≠ "" ∧
      game = ⟨id, name, summary, rd, gen, plat, cov, scr, dev, pub, rat, met, ca, ua⟩ := by
  by_cases h1 : id = "" <;> by_cases h2 : name = "" <;>
    simp [Game.init, h1, h2] at h <;> simp_all

theorem userGame_init_ok_inv {game : Game} {tags : List Tag} {id : Option Int}
    {status : GameStatus} {ur : Option Int} {urv : Option String} {pt : Int}
    {da : Option PyDateTime} {ds dc lp : Option PyDateTime} {notes : Option String}
    {now : PyDateTime} {u : UserGame}
    (h : UserGame.init game tags id status ur urv pt da ds dc lp notes now = .ok u) :
    tags ≠ [] ∧ ¬ pt < 0 ∧
      u = ⟨game, tags, id, status, ur, urv, pt, da.getD now, ds, dc, lp, notes⟩ := by
  by_cases h1 : tags = [] <;> by_cases h2 : pt < 0 <;>
    simp [UserGame.init, h1, h2] at h <;> simp_all

theorem row_tags_ok_inv {row : Row} {tags : List Tag}
    (h : row_tags row = .ok tags) :
    ∃ ns, parse_json_field row.tags = some ns ∧ ns ≠ [] ∧
      tags = ns.map (fun n => Tag.init n none) := by
  cases hp : parse_json_field row.tags with
  | none => simp [row_tags, hp] at h
  | some ns =>
    cases ns with
    | nil => simp [row_tags, hp] at h
    | cons n ns' =>
      simp only [row_tags, hp] at h
      exact ⟨n :: ns', rfl, by simp, (Except.ok.inj h).symm⟩

theorem row_game_ok_inv {row : Row} {game : Game}
    (h : row_game row = .ok game) :
    ∃ gid nm rd ca ua, row.game_id = some gid ∧ row.name = some nm ∧
      gid ≠ "" ∧ nm ≠ "" ∧
      parse_dt_optional row.release_date = .ok rd ∧
      parse_dt_optional row.created_at = .ok ca ∧
      parse_dt_optional row.updated_at = .ok ua ∧
      game = ⟨gid, nm, row.summary, rd, parse_json_field row.genres,
        parse_json_field row.platforms, row.cover_url,
        parse_json_field row.screenshots, row.developer, row.publisher,
        row.rating, row.metacritic_score, ca, ua⟩ := by
  cases hgid : row.game_id with
  | none => simp [row_game, hgid] at h
  | some gid =>
    cases hnm : row.name with
    | none => simp [row_game, hgid, hnm] at h
    | some nm =>
      simp only [row_game, hgid, hnm] at h
      cases hrd : parse_dt_optional row.release_date with
      | error e => rw [hrd, except_bind_error] at h; exact absurd h (by simp)
      | ok rd =>
        rw [hrd, except_bind_ok] at h
        cases hca : parse_dt_optional row.created_at with
        | error e => rw [hca, except_bind_error] at h; exact absurd h (by simp)
        | ok ca =>
          rw [hca, except_bind_ok] at h
          cases hua : parse_dt_optional row.updated_at with
          | error e => rw [hua, except_bind_error] at h; exact absurd h (by simp)
          | ok ua =>
            rw [hua, except_bind_ok] at h
            obtain ⟨hg1, hg2, hgame⟩ := game_init_ok_inv h
            exact ⟨gid, nm, rd, ca, ua, rfl, rfl, hg1, hg2, rfl, rfl, rfl, hgame⟩

theorem row_to_user_game_ok_inv {row : Row} {u : UserGame}
    (h : row_to_user_game row = .ok u) :
    ∃ game tags da_s st_s pt status da ds dc lp,
      row_game row = .ok game ∧ row_tags row = .ok tags ∧
      row.date_added = some da_s ∧ row.status = some st_s ∧
      row.played_time = some pt ∧
      GameStatus.parse st_s = .ok status ∧ parse_dt_required da_s = .ok da ∧
      parse_dt_optional row.date_started = .ok ds ∧
      parse_dt_optional row.date_completed = .ok dc ∧
      parse_dt_optional row.last_played = .ok lp ∧
      UserGame.init game tags (some row.id) status row.user_rating
        row.user_review pt (some da) ds dc lp row.notes da = .ok u := by
  simp only [row_to_user_game] at h
  cases h1 : row_game row with
  | error e => rw [h1, except_bind_error] at h; exact absurd h (by simp)
  | ok game =>
    rw [h1, except_bind_ok] at h
    cases h2 : row_tags row with
    | error e => rw [h2, except_bind_error] at h; exact absurd h (by simp)
    | ok tags =>
      rw [h2, except_bind_ok] at h
      cases hda : row.date_added with
      | none => rw [hda] at h; simp at h
      | some da_s =>
        rw [hda] at h
        simp only [] at h
        cases hst : row.status with
        | none => rw [hst] at h; simp at h
        | some st_s =>
          rw [hst] at h
          simp only [] at h
          cases hpt : row.played_time with
          | none => rw [hpt] at h; simp at h
          | some pt =>
            rw [hpt] at h
            simp only [] at h
            cases hs1 : GameStatus.parse st_s with
            | error e => rw [hs1, except_bind_error] at h; exact absurd h (by simp)
            | ok status =>
              rw [hs1, except_bind_ok] at h
              cases hs2 : parse_dt_required da_s with
              | error e => rw [hs2, except_bind_error] at h; exact absurd h (by simp)
              | ok da =>
                rw [hs2, except_bind_ok] at h
                cases hs3 : parse_dt_optional row.date_started with
                | error e => rw [hs3, except_bind_error] at h; exact absurd h (by simp)
                | ok ds =>
                  rw [hs3, except_bind_ok] at h
                  cases hs4 : parse_dt_optional row.date_completed with
                  | error e => rw [hs4, except_bind_error] at h; exact absurd h (by simp)
                  | ok dc =>
                    rw [hs4, except_bind_ok] at h
                    cases hs5 : parse_dt_optional row.last_played with
                    | error e => rw [hs5, except_bind_error] at h; exact absurd h (by simp)
                    | ok lp =>
                      rw [hs5, except_bind_ok] at h
                      exact ⟨game, tags, da_s, st_s, pt, status, da, ds, dc, lp,
                        rfl, rfl, rfl, rfl, rfl, hs1, hs2, rfl, rfl, rfl, h⟩

/-- Every tag a successful conversion produces has `id = None`. -/
theorem row_to_ok_tag_ids {row : Row} {u : UserGame}
    (h : row_to_user_game row = .ok u) : ∀ t ∈ u.tags, t.id = none := by
  obtain ⟨game, tags, _, _, _, _, _, _, _, _, _, h2, _, _, _, _, _, _, _, _, hinit⟩ :=
    row_to_user_game_ok_inv h
  obtain ⟨ns, _, _, htags⟩ := row_tags_ok_inv h2
  obtain ⟨_, _, hu⟩ := userGame_init_ok_inv hinit
  subst hu
  subst htags
  intro t ht
  obtain ⟨n, _, rfl⟩ := List.mem_map.mp ht
  rfl

theorem add_tag_distinct (u : UserGame) (t : Tag) (hd : TagNamesDistinct u) :
    TagNamesDistinct (u.add_tag t).2 := by
  by_cases hh : u.has_tag_by_name t.name = true
  · have heq : u.add_tag t = (false, u) := by simp [UserGame.add_tag, hh]
    rw [heq]
    exact hd
  · have heq : u.add_tag t = (true, { u with tags := u.tags ++ [t] }) := by
      simp [UserGame.add_tag, hh]
    rw [heq]
    show List.Pairwise (fun a b => pyLower a.name ≠ pyLower b.name) (u.tags ++ [t])
    simp only [TagNamesDistinct] at hd
    rw [List.pairwise_append]
    refine ⟨hd, List.pairwise_singleton _ _, ?_⟩
    intro a ha b hb
    rw [List.mem_singleton] at hb
    subst hb
    simp only [UserGame.has_tag_by_name, List.any_eq_true, beq_iff_eq,
      not_exists, not_and, Bool.not_eq_true] at hh
    push_neg at hh
    exact hh a ha

theorem add_tags_distinct (u : UserGame) (ts : List Tag) (hd : TagNamesDistinct u) :
    TagNamesDistinct (u.add_tags ts).2 := by
  suffices haux : ∀ (l : List Tag) (p : Nat × UserGame), TagNamesDistinct p.2 →
      TagNamesDistinct ((l.foldl (fun p t =>
        let r := p.2.add_tag t
        (if r.1 then p.1 + 1 else p.1, r.2)) p).2) by
    exact haux ts (0, u) hd
  intro l
  induction l with
  | nil => intro p hp; exact hp
  | cons t l ih =>
    intro p hp
    simp only [List.foldl_cons]
    exact ih _ (add_tag_distinct _ _ hp)

/-- C10: `add_tag(t)` appends and returns true exactly when no
case-insensitively equal tag name is present, returns false unchanged
otherwise, and together with `add_tags` preserves distinctness of tag names
(case-insensitive) whenever it holds beforehand. -/
theorem C10_add_tag_spec :
    (∀ (u : UserGame) (t : Tag), u.has_tag_by_name t.name = false →
       u.add_tag t = (true, { u with tags := u.tags ++ [t] })) ∧
    (∀ (u : UserGame) (t : Tag), u.has_tag_by_name t.name = true →
       u.add_tag t = (false, u)) ∧
    (∀ (u : UserGame) (t : Tag), TagNamesDistinct u →
       TagNamesDistinct (u.add_tag t).2) ∧
    (∀ (u : UserGame) (ts : List Tag), TagNamesDistinct u →
       TagNamesDistinct (u.add_tags ts).2) := by
  refine ⟨?_, ?_, add_tag_distinct, add_tags_distinct⟩
  · intro u t h
    simp [UserGame.add_tag, h]
  · intro u t h
    simp [UserGame.add_tag, h]

/-- Witness for C10 at concrete inputs. -/
theorem C10_add_tag_spec_witness :
    ugFav.add_tag ⟨none, "New"⟩ = (true, { ugFav with tags := ugFav.tags ++ [⟨none, "New"⟩] }) ∧
    ugFav.add_tag ⟨some 3, "FAVORITE"⟩ = (false, ugFav) ∧
    TagNamesDistinct (ugFav.add_tag ⟨none, "New"⟩).2 :=
  ⟨C10_add_tag_spec.1 ugFav ⟨none, "New"⟩ (by decide),
   C10_add_tag_spec.2.1 ugFav ⟨some 3, "FAVORITE"⟩ (by decide),
   C10_add_tag_spec.2.2.1 ugFav ⟨none, "New"⟩
     (by simp only [TagNamesDistinct]; decide)⟩

/-! ## C8: constructor validation -/

/-- C8: constructing a `UserGame` with an empty tag list or a negative
`played_time`, or a `Game` with an empty id or name, raises a `ValueError`
before any storage interaction (the constructors are pure and touch no
storage); construction with non-empty tags, non-negative played time and
non-empty id and name succeeds. -/
theorem C8_constructor_validation :
    (∀ (name : String) (a1 : Option String) (a2 : Option PyDateTime)
       (a3 a4 : Option (List String)) (a5 : Option String)
       (a6 : Option (List String)) (a7 a8 : Option String) (a9 : Option PyFloat)
       (a10 : Option Int) (a11 a12 : Option PyDateTime),
       Game.init "" name a1 a2 a3 a4 a5 a6 a7 a8 a9 a10 a11 a12 =
         .error (.valueError "game_id must not empty.")) ∧
    (∀ (id : String) (a1 : Option String) (a2 : Option PyDateTime)
       (a3 a4 : Option (List String)) (a5 : Option String)
       (a6 : Option (List String)) (a7 a8 : Option String) (a9 : Option PyFloat)
       (a10 : Option Int) (a11 a12 : Option PyDateTime), id ≠ "" →
       Game.init id "" a1 a2 a3 a4 a5 a6 a7 a8 a9 a10 a11 a12 =
         .error (.valueError "name must not empty.")) ∧
    (∀ (id name : String) (a1 : Option String) (a2 : Option PyDateTime)
       (a3 a4 : Option (List String)) (a5 : Option String)
       (a6 : Option (List String)) (a7 a8 : Option String) (a9 : Option PyFloat)
       (a10 : Option Int) (a11 a12 : Option PyDateTime), id ≠ "" → name ≠ "" →
       Game.init id name a1 a2 a3 a4 a5 a6 a7 a8 a9 a10 a11 a12 =
         .ok ⟨id, name, a1, a2, a3, a4, a5, a6, a7, a8, a9, a10, a11, a12⟩) ∧
    (∀ (game : Game) (id : Option Int) (status : GameStatus) (ur : Option Int)
       (urv : Option String) (pt : Int) (da ds dc lp : Option PyDateTime)
       (notes : Option String) (now : PyDateTime),
       UserGame.init game [] id status ur urv pt da ds dc lp notes now =
         .error (.valueError "Tags must not empty.")) ∧
    (∀ (game : Game) (tags : List Tag) (id : Option Int) (status : GameStatus)
       (ur : Option Int) (urv : Option String) (pt : Int)
       (da ds dc lp : Option PyDateTime) (notes : Option String)
       (now : PyDateTime), tags ≠ [] → pt < 0 →
       UserGame.init game tags id status ur urv pt da ds dc lp notes now =
         .error (.valueError "played_time must larger than 0.")) ∧
    (∀ (game : Game) (tags : List Tag) (id : Option Int) (status : GameStatus)
       (ur : Option Int) (urv : Option String) (pt : Int)
       (da ds dc lp : Option PyDateTime) (notes : Option String)
       (now : PyDateTime), tags ≠ [] → ¬ pt < 0 →
       UserGame.init game tags id status ur urv pt da ds dc lp notes now =
         .ok ⟨game, tags, id, status, ur, urv, pt, da.getD now, ds, dc, lp, notes⟩) := by
  refine ⟨?_, ?_, ?_, ?_, ?_, ?_⟩
  · intro name a1 a2 a3 a4 a5 a6 a7 a8 a9 a10 a11 a12
    simp [Game.init]
  · intro id a1 a2 a3 a4 a5 a6 a7 a8 a9 a10 a11 a12 h
    simp [Game.init, h]
  · intro id name a1 a2 a3 a4 a5 a6 a7 a8 a9 a10 a11 a12 h1 h2
    simp [Game.init, h1, h2]
  · intro game id status ur urv pt da ds dc lp notes now
    simp [UserGame.init]
  · intro game tags id status ur urv pt da ds dc lp notes now h1 h2
    simp [UserGame.init, h1, h2]
  · intro game tags id status ur urv pt da ds dc lp notes now h1 h2
    simp [UserGame.init, h1, h2]

/-- Witness for C8 at concrete inputs. -/
theorem C8_constructor_validation_witness :
    Game.init "g1" "" none none none none none none none none none none none none =
      .error (.valueError "name must not empty.") ∧
    Game.init "g1" "Test" none none none none none none none none none none none none =
      .ok gameG1 ∧
    UserGame.init gameG1 [⟨none, "Favorite"⟩, ⟨none, "Wishlist"⟩] none .playing
      none none (-1) (some dt2023) none none none none dt2023 =
      .error (.valueError "played_time must larger than 0.") ∧
    UserGame.init gameG1 [⟨none, "Favorite"⟩, ⟨none, "Wishlist"⟩] none .playing
      none none 120 (some dt2023) none none none none dt2023 = .ok ugFav :=
  ⟨C8_constructor_validation.2.1 "g1" none none none none none none none none
      none none none none (by decide),
   C8_constructor_validation.2.2.1 "g1" "Test" none none none none none none
      none none none none none none (by decide) (by decide),
   C8_constructor_validation.2.2.2.2.1 gameG1 _ none .playing none none (-1)
      (some dt2023) none none none none dt2023 (by decide) (by decide),
   C8_constructor_validation.2.2.2.2.2 gameG1 _ none .playing none none 120
      (some dt2023) none none none none dt2023 (by decide) (by decide)⟩

/-! ## C9: tag ids are never persisted and never recovered -/

/-- C9: every `UserGame` produced by any read operation carries tags whose
`id` is `None`; and the tuple written by insert/update depends only on tag
names, so a numeric tag id passed in is never persisted. -/
theorem C9_tag_ids_not_persisted :
    (∀ (row : Row) (u : UserGame), row_to_user_game row = .ok u →
       ∀ t ∈ u.tags, t.id = none) ∧
    (∀ (db : DB) (gid : String) (u : UserGame),
       get_user_game_by_game_id db gid = .ok (some u) → ∀ t ∈ u.tags, t.id = none) ∧
    (∀ (db : DB) (us : List UserGame), load_all_user_games db = .ok us →
       ∀ u ∈ us, ∀ t ∈ u.tags, t.id = none) ∧
    (∀ (db : DB) (status : GameStatus) (us : List UserGame),
       get_user_games_by_status db status = .ok us →
       ∀ u ∈ us, ∀ t ∈ u.tags, t.id = none) ∧
    (∀ (db : DB) (q : String) (us : List UserGame),
       get_user_games_by_tag db q = .ok us →
       ∀ u ∈ us, ∀ t ∈ u.tags, t.id = none) ∧
    (∀ (i : Int) (ug : UserGame) (f : Tag → Option Int),
       user_game_row i { ug with tags := ug.tags.map (fun t => ⟨f t, t.name⟩) } =
         user_game_row i ug) := by
  refine ⟨fun _ _ h => row_to_ok_tag_ids h, ?_, ?_, ?_, ?_, ?_⟩
  · intro db gid u h
    simp only [get_user_game_by_game_id] at h
    cases hf : db.rows.find? (fun r => r.game_id == some gid) with
    | none => rw [hf] at h; exact absurd h (by simp)
    | some row =>
      rw [hf] at h
      simp only [] at h
      cases hc : row_to_user_game row with
      | error e => rw [hc] at h; exact absurd h (by simp [Except.map])
      | ok u' =>
        rw [hc, except_map_ok] at h
        have : u' = u := Option.some.inj (Except.ok.inj h)
        subst this
        exact row_to_ok_tag_ids hc
  · intro db us h u hu
    simp only [load_all_user_games] at h
    obtain ⟨r, _, hconv⟩ := (convert_rows_ok_iff h u).mp hu
    exact row_to_ok_tag_ids hconv
  · intro db status us h u hu
    simp only [get_user_games_by_status] at h
    obtain ⟨r, _, hconv⟩ := (convert_rows_ok_iff h u).mp hu
    exact row_to_ok_tag_ids hconv
  · intro db q us h u hu
    obtain ⟨⟨r, _, _, hconv⟩, _⟩ := (get_by_tag_mem db q us h u).mp hu
    exact row_to_ok_tag_ids hconv
  · intro i ug f
    simp [user_game_row, List.map_map, Function.comp_def]

/-- Witness for C9 at concrete inputs. -/
theorem C9_tag_ids_not_persisted_witness :
    (⟨none, "Favorite"⟩ : Tag).id = none ∧
    user_game_row 1 { ugFav with
      tags := ugFav.tags.map (fun t => (⟨some 7, t.name⟩ : Tag)) } =
      user_game_row 1 ugFav :=
  ⟨C9_tag_ids_not_persisted.2.1 dbFav "g1" { ugFav with id := some 1 }
      (by decide) ⟨none, "Favorite"⟩ (by decide),
   C9_tag_ids_not_persisted.2.2.2.2.2 1 ugFav (fun _ => some 7)⟩

/-! ## C5: add_user_game -/

theorem user_game_row_tags_some (i : Int) (ug : UserGame) (h : ug.tags ≠ []) :
    (user_game_row i ug).tags = some (json_dumps (ug.tags.map Tag.name)) := by
  cases hts : ug.tags with
  | nil => exact absurd hts h
  | cons t ts => simp [user_game_row, hts, serialize_json_field]

theorem user_game_row_tags_none (i : Int) (ug : UserGame) (h : ug.tags = []) :
    (user_game_row i ug).tags = none := by
  simp [user_game_row, h, serialize_json_field]

/-- C5 counterexample: a record whose tag list was emptied through
`clear_tags` makes `add_user_game` raise a NOT NULL constraint error and add
no row, although no row with its `game_id` exists — so the call neither
"inserts exactly one row" nor "returns its storage-assigned id". -/
theorem C5_counterexample :
    (ugFav.clear_tags).2.tags = [] ∧
    DB.empty.rows = [] ∧
    add_user_game DB.empty (ugFav.clear_tags).2 =
      (.error (.integrityError "NOT NULL constraint failed: user_games.tags"), DB.empty) := by
  decide

/-- C5 as amended: for a record with at least one tag, `add_user_game`
appends exactly one row and returns its storage-assigned rowid when no row
shares its `game_id`; a duplicate `game_id` raises a constraint-violation
error (a distinct `IntegrityError`) and adds no row; a missing
`cursor.lastrowid` after the insert raises an internal `RuntimeError`; and a
record whose tag list was emptied raises a NOT NULL constraint error and
adds no row. -/
theorem C5_add_user_game (db : DB) (ug : UserGame) (h1 : ug.tags ≠ []) :
    ((¬ ∃ r ∈ db.rows, r.game_id = some ug.game.game_id) →
       add_user_game db ug =
         (.ok db.nextId, ⟨db.rows ++ [user_game_row db.nextId ug]⟩)) ∧
    ((∃ r ∈ db.rows, r.game_id = some ug.game.game_id) →
       add_user_game db ug =
         (.error (.integrityError "UNIQUE constraint failed: user_games.game_id"), db)) ∧
    add_user_game_check_lastrowid none =
      .error (.runtimeError "Failed to insert game: no ID returned") ∧
    (∀ (db' : DB) (ug' : UserGame), ug'.tags = [] →
       add_user_game db' ug' =
         (.error (.integrityError "NOT NULL constraint failed: user_games.tags"), db')) := by
  refine ⟨?_, ?_, rfl, ?_⟩
  · intro hfresh
    have hnn := user_game_row_tags_some db.nextId ug h1
    have hany : db.rows.any (fun r => r.game_id == some ug.game.game_id) = false := by
      rw [List.any_eq_false]
      intro r hr
      simp only [beq_iff_eq]
      exact fun hc => hfresh ⟨r, hr, hc⟩
    simp only [add_user_game]
    rw [if_neg (by rw [hnn]; exact fun hc => Option.noConfusion hc), hany]
    simp [add_user_game_check_lastrowid, user_game_row]
  · rintro ⟨r, hr, hc⟩
    have hnn := user_game_row_tags_some db.nextId ug h1
    have hany : db.rows.any (fun r => r.game_id == some ug.game.game_id) = true := by
      rw [List.any_eq_true]
      exact ⟨r, hr, by simp [hc]⟩
    simp [add_user_game, hnn, hany]
  · intro db' ug' h
    simp [add_user_game, user_game_row_tags_none _ _ h]

/-- Witness for C5 at concrete inputs. -/
theorem C5_add_user_game_witness :
    add_user_game DB.empty ugFav = (.ok 1, dbFav) ∧
    add_user_game dbFav ugFav =
      (.error (.integrityError "UNIQUE constraint failed: user_games.game_id"), dbFav) :=
  ⟨(C5_add_user_game DB.empty ugFav (by decide)).1 (by simp [DB.empty]),
   (C5_add_user_game dbFav ugFav (by decide)).2.1 (by decide)⟩

/-! ## C6: update_user_game -/

/-- C6 counterexample: `dbTwo` holds a row with internal id 2, and
`ugCollide` carries internal id 2 — so by the claim the update should return
true — but the new `game_id` collides with row 1 and the call raises a
constraint error instead. -/
theorem C6_counterexample :
    dbTwo.rows.any (fun r => r.id == 2) = true ∧
    ugCollide.id = some 2 ∧
    update_user_game dbTwo ugCollide =
      (.error (.integrityError "UNIQUE constraint failed: user_games.game_id"), dbTwo) := by
  decide

/-- C6 as amended: `update_user_game` returns false without a write when the
record has no internal id; with an internal id, it returns false leaving the
table unchanged when no row matches; when a row matches and the record (with
non-empty tags) shares its `game_id` with no other row, it rewrites all
columns of the matched row and returns true; when another row already holds
the record's `game_id`, it raises a constraint error instead and leaves the
table unchanged. -/
theorem C6_update_user_game :
    (∀ (db : DB) (ug : UserGame), ug.id = none →
       update_user_game db ug = (.ok false, db)) ∧
    (∀ (db : DB) (ug : UserGame) (i : Int), ug.id = some i →
       (¬ ∃ r ∈ db.rows, r.id = i) → update_user_game db ug = (.ok false, db)) ∧
    (∀ (db : DB) (ug : UserGame) (i : Int), ug.id = some i → ug.tags ≠ [] →
       (∃ r ∈ db.rows, r.id = i) →
       (¬ ∃ r ∈ db.rows, r.id ≠ i ∧ r.game_id = some ug.game.game_id) →
       update_user_game db ug =
         (.ok true, ⟨db.rows.map (fun r => if r.id == i then user_game_row i ug else r)⟩)) ∧
    (∀ (db : DB) (ug : UserGame) (i : Int), ug.id = some i → ug.tags ≠ [] →
       (∃ r ∈ db.rows, r.id = i) →
       (∃ r ∈ db.rows, r.id ≠ i ∧ r.game_id = some ug.game.game_id) →
       update_user_game db ug =
         (.error (.integrityError "UNIQUE constraint failed: user_games.game_id"), db)) := by
  refine ⟨?_, ?_, ?_, ?_⟩
  · intro db ug h
    simp [update_user_game, h]
  · intro db ug i hid hmatch
    have hany : db.rows.any (fun r => r.id == i) = false := by
      rw [List.any_eq_false]
      intro r hr
      simp only [beq_iff_eq]
      exact fun hc => hmatch ⟨r, hr, hc⟩
    simp [update_user_game, hid, hany]
  · intro db ug i hid h1 hmatch hnocol
    have hany : db.rows.any (fun r => r.id == i) = true := by
      rw [List.any_eq_true]
      obtain ⟨r, hr, hc⟩ := hmatch
      exact ⟨r, hr, by simp [hc]⟩
    have hnn := user_game_row_tags_some i ug h1
    have hcol : db.rows.any (fun r => !(r.id == i) && r.game_id == some ug.game.game_id) = false := by
      rw [List.any_eq_false]
      intro r hr
      simp only [Bool.and_eq_true, beq_iff_eq, Bool.not_eq_true', beq_eq_false_iff_ne, ne_eq, not_and]
      exact fun hne hc => hnocol ⟨r, hr, hne, hc⟩
    simp [update_user_game, hid, hany, hnn, hcol]
  · intro db ug i hid h1 hmatch hcol
    have hany : db.rows.any (fun r => r.id == i) = true := by
      rw [List.any_eq_true]
      obtain ⟨r, hr, hc⟩ := hmatch
      exact ⟨r, hr, by simp [hc]⟩
    have hnn := user_game_row_tags_some i ug h1
    have hcola : db.rows.any (fun r => !(r.id == i) && r.game_id == some ug.game.game_id) = true := by
      rw [List.any_eq_true]
      obtain ⟨r, hr, hne, hc⟩ := hcol
      exact ⟨r, hr, by simp [hc, hne]⟩
    simp [update_user_game, hid, hany, hnn, hcola]

/-- Witness for C6 at concrete inputs. -/
theorem C6_update_user_game_witness :
    update_user_game dbTwo ugFav = (.ok false, dbTwo) ∧
    update_user_game dbTwo { ugFav with id := some 99 } = (.ok false, dbTwo) ∧
    update_user_game dbTwo { ugFav with id := some 1, user_rating := some 10 } =
      (.ok true, ⟨dbTwo.rows.map (fun r =>
        if r.id == 1 then user_game_row 1 { ugFav with id := some 1, user_rating := some 10 }
        else r)⟩) :=
  ⟨C6_update_user_game.1 dbTwo ugFav (by decide),
   C6_update_user_game.2.1 dbTwo { ugFav with id := some 99 } 99 (by decide) (by decide),
   C6_update_user_game.2.2.1 dbTwo { ugFav with id := some 1, user_rating := some 10 } 1
     (by decide) (by decide) (by decide) (by decide)⟩

/-! ## C3: update_config -/

/-- The cumulative effect of applying a kwargs list to a section. -/
theorem C3_counterexample :
    isOkE (update_config stLoaded "igdb" [("token_timestamp", .str "x"), ("bogus", .int 1)]).1 = false ∧
    (update_config stLoaded "igdb" [("token_timestamp", .str "x"), ("bogus", .int 1)]).2.config =
      some { cfgLoaded with igdb := { cfgLoaded.igdb with token_timestamp := .str "x" } } ∧
    cfgLoaded.igdb.token_timestamp ≠ .str "x" ∧
    (update_config stLoaded "igdb" [("token_timestamp", .str "x"), ("bogus", .int 1)]).2.savedFile =
      stLoaded.savedFile := by
  decide

theorem apply_update_fields_all_ok (st : ConfigState) (sec : String) :
    ∀ (kws : List (String × PyVal)) (cfg : ConfigData),
      (∀ kv ∈ kws, kv.1 ∈ allowedFields sec) →
      apply_update_fields st cfg sec kws =
        (.ok (), { config := some (applyFields cfg sec kws),
                   savedFile := some (applyFields cfg sec kws).to_dict }) := by
  intro kws
  induction kws with
  | nil => intro cfg _; rfl
  | cons kv rest ih =>
    intro cfg hall
    have hk : kv.1 ∈ allowedFields sec := hall kv (List.mem_cons_self _ _)
    obtain ⟨k, v⟩ := kv
    simp only [apply_update_fields]
    rw [if_pos (by simpa using hk)]
    exact ih _ (fun x hx => hall x (List.mem_cons_of_mem _ hx))

theorem apply_update_fields_first_bad (st : ConfigState) (sec : String) :
    ∀ (good : List (String × PyVal)) (cfg : ConfigData) (k : String) (v : PyVal)
      (rest : List (String × PyVal)),
      (∀ kv ∈ good, kv.1 ∈ allowedFields sec) → k ∉ allowedFields sec →
      apply_update_fields st cfg sec (good ++ (k, v) :: rest) =
        (.error (.valueError (fieldErrMsg k sec)),
         { st with config := some (applyFields cfg sec good) }) := by
  intro good
  induction good with
  | nil =>
    intro cfg k v rest _ hk
    simp only [List.nil_append, apply_update_fields]
    rw [if_neg (by simpa using hk)]
    rfl
  | cons kv good ih =>
    intro cfg k v rest hall hk
    have hkv : kv.1 ∈ allowedFields sec := hall kv (List.mem_cons_self _ _)
    obtain ⟨k0, v0⟩ := kv
    simp only [List.cons_append, apply_update_fields]
    rw [if_pos (by simpa using hkv)]
    exact ih _ k v rest (fun x hx => hall x (List.mem_cons_of_mem _ hx)) hk

/-- C3 as amended: `update_config` on a loaded configuration and any valid
section (`igdb`, `server`, `database`) validates and applies the supplied
fields one at a time in order.  When every field is on the section's
allow-list, all are applied and the whole configuration is immediately
persisted; when some field is not — for `server` and `database` the
allow-list is empty, so any first field — the call fails with a `ValueError`
at the first such field, with the fields before it already applied to the
in-memory configuration (so nothing is mutated only when the offending field
comes first) and nothing persisted. -/
theorem C3_update_config (st : ConfigState) (cfg : ConfigData) (sec : String)
    (kwargs : List (String × PyVal)) (hload : st.config = some cfg)
    (hsec : sec ∈ VALID_UPDATE_SECTIONS) :
    ((∀ kv ∈ kwargs, kv.1 ∈ allowedFields sec) →
       update_config st sec kwargs =
         (.ok (), { config := some (applyFields cfg sec kwargs),
                    savedFile := some (applyFields cfg sec kwargs).to_dict })) ∧
    (∀ (good : List (String × PyVal)) (k : String) (v : PyVal)
       (rest : List (String × PyVal)),
       kwargs = good ++ (k, v) :: rest →
       (∀ kv ∈ good, kv.1 ∈ allowedFields sec) →
       k ∉ allowedFields sec →
       update_config st sec kwargs =
         (.error (.valueError (fieldErrMsg k sec)),
          { st with config := some (applyFields cfg sec good) })) := by
  constructor
  · intro hall
    simp only [update_config, hload]
    rw [if_neg (by simpa using hsec)]
    exact apply_update_fields_all_ok st sec kwargs cfg hall
  · intro good k v rest hsplit hgood hk
    subst hsplit
    simp only [update_config, hload]
    rw [if_neg (by simpa using hsec)]
    exact apply_update_fields_first_bad st sec good cfg k v rest hgood hk

/-- Witness for C3 at concrete inputs: an all-allowed igdb call, an igdb
call failing at a disallowed field, and a `server` call (empty allow-list)
failing at its first field with nothing mutated or persisted. -/
theorem C3_update_config_witness :
    update_config stLoaded "igdb"
      [("token_timestamp", .str "y"), ("data_refresh_limit", .int 20)] =
      (.ok (), { config := some (applyFields cfgLoaded "igdb"
                   [("token_timestamp", .str "y"), ("data_refresh_limit", .int 20)]),
                 savedFile := some (applyFields cfgLoaded "igdb"
                   [("token_timestamp", .str "y"), ("data_refresh_limit", .int 20)]).to_dict }) ∧
    update_config stLoaded "igdb" [("bogus", .int 1)] =
      (.error (.valueError (fieldErrMsg "bogus" "igdb")),
       { stLoaded with config := some (applyFields cfgLoaded "igdb" []) }) ∧
    update_config stLoaded "server" [("host", .str "h")] =
      (.error (.valueError (fieldErrMsg "host" "server")),
       { stLoaded with config := some (applyFields cfgLoaded "server" []) }) :=
  ⟨(C3_update_config stLoaded cfgLoaded "igdb"
      [("token_timestamp", .str "y"), ("data_refresh_limit", .int 20)] rfl (by decide)).1
      (by decide),
   (C3_update_config stLoaded cfgLoaded "igdb" [("bogus", .int 1)] rfl (by decide)).2
      [] "bogus" (.int 1) [] rfl (by simp) (by decide),
   (C3_update_config stLoaded cfgLoaded "server" [("host", .str "h")] rfl (by decide)).2
      [] "host" (.str "h") [] rfl (by simp) (by decide)⟩

/-! ## C4: environment sourcing of IGDB credentials -/

/-- C4 evaluation at the failing input: the strict variant sources the three
credentials from the environment (never the file, whose igdb section here
carries contrary values) and fails with a `ValueError` when one variable is
missing; the lenient `ConfigLoader` variant, however, loads `client_id` as
the empty string even with all three variables set — its `__post_init__`
override (which, as the dead code shows, would have produced "abc") is never
invoked because the dataclass defines its own `__init__`. -/
theorem C4_env_sourcing_eval :
    (config_manager_load envFull (some fileWithCreds)).map
      (fun c => (c.igdb.client_id, c.igdb.client_secret, c.igdb.auth_token)) =
      .ok ("abc", "defg", "hij") ∧
    config_manager_load envNoSecret (some fileWithCreds) =
      .error (.valueError "IGDB_CLIENT_SECRET environment variable is required") ∧
    (loader_load envFull (some fileWithCreds)).map (fun c => c.igdb.client_id) =
      .ok "" ∧
    (IGDBConfigL.post_init envFull
      (IGDBConfigL.init (dict_get_section fileWithCreds "igdb"))).client_id = "abc" ∧
    ("" : String) ≠ "abc" := by
  decide

/-! ## C1: add/read round trip -/

theorem add_user_game_fresh (db : DB) (ug : UserGame) (h1 : ug.tags ≠ [])
    (hfresh : ¬ ∃ r ∈ db.rows, r.game_id = some ug.game.game_id) :
    add_user_game db ug = (.ok db.nextId, ⟨db.rows ++ [user_game_row db.nextId ug]⟩) := by
  have hnn := user_game_row_tags_some db.nextId ug h1
  have hany : db.rows.any (fun r => r.game_id == some ug.game.game_id) = false := by
    rw [List.any_eq_false]
    intro r hr
    simp only [beq_iff_eq]
    exact fun hc => hfresh ⟨r, hr, hc⟩
  simp only [add_user_game]
  rw [if_neg (by rw [hnn]; exact fun hc => Option.noConfusion hc), hany]
  simp [add_user_game_check_lastrowid, user_game_row]

/-- C1 counterexample: `ugTagId` is a valid `UserGame` in the claim's sense
(non-empty tags, non-negative played time, non-empty id and name), yet
adding it and reading it back by its `game_id` does not return an equal
record even modulo sub-second truncation and the internal id: the tag's
stored id 5 comes back as `None` and the empty `genres` list comes back as
absent. -/
theorem C1_counterexample :
    ugTagId.tags ≠ [] ∧ 0 ≤ ugTagId.played_time ∧
    ugTagId.game.game_id ≠ "" ∧ ugTagId.game.name ≠ "" ∧
    (get_user_game_by_game_id (add_user_game DB.empty ugTagId).2 "g1").map
        (Option.map modulo_id_and_subsecond) ≠
      .ok (some (modulo_id_and_subsecond ugTagId)) := by
  decide

/-- C1 as amended: for a valid `UserGame` whose tags carry no ids and whose
optional list fields are not the (unrepresentable) empty list, inserted into
a table with no row for its `game_id`, `add_user_game` returns the assigned
rowid and reading back by `game_id` returns the record exactly, with only the
internal id filled in (timestamps round-trip exactly, so equality holds even
without the allowed sub-second truncation). -/
theorem C1_roundtrip (db : DB) (ug : UserGame) (hv : ug.Valid)
    (hids : ∀ t ∈ ug.tags, t.id = none)
    (hg : ug.game.genres ≠ some []) (hp : ug.game.platforms ≠ some [])
    (hs : ug.game.screenshots ≠ some [])
    (hfresh : ¬ ∃ r ∈ db.rows, r.game_id = some ug.game.game_id) :
    (add_user_game db ug).1 = .ok db.nextId ∧
    get_user_game_by_game_id (add_user_game db ug).2 ug.game.game_id =
      .ok (some { ug with id := some db.nextId }) := by
  have h1 : ug.tags ≠ [] := hv.1
  have hadd := add_user_game_fresh db ug h1 hfresh
  refine ⟨by rw [hadd], ?_⟩
  rw [hadd]
  simp only [get_user_game_by_game_id]
  have hnone : db.rows.find? (fun r => r.game_id == some ug.game.game_id) = none := by
    rw [List.find?_eq_none]
    intro r hr
    simp only [beq_iff_eq]
    exact fun hc => hfresh ⟨r, hr, hc⟩
  have hrow : ((user_game_row db.nextId ug).game_id == some ug.game.game_id) = true := by
    simp [user_game_row]
  rw [List.find?_append, hnone]
  simp only [Option.none_orElse, List.find?_cons, hrow, cond_true, if_pos rfl, Option.none_or]
  rw [row_to_user_game_roundtrip db.nextId ug hv hids hg hp hs, except_map_ok]

/-- Witness for C1 at concrete inputs. -/
theorem C1_roundtrip_witness :
    get_user_game_by_game_id dbFav "g1" = .ok (some { ugFav with id := some 1 }) := by
  have hv : ugFav.Valid := by
    refine ⟨by decide, by decide, by decide, by decide, by decide,
      ?_, ?_, ?_, ?_, ?_, ?_⟩ <;> simp [ugFav, gameG1]
  have := C1_roundtrip DB.empty ugFav hv (by decide)
    (by simp [ugFav, gameG1]) (by simp [ugFav, gameG1]) (by simp [ugFav, gameG1])
    (by simp [DB.empty])
  exact this.2

/-! ## C2: get_user_games_by_tag -/

/-- C2 counterexample: the stored collection `dbQuote` holds (as its single
row, readable by `game_id`) a game tagged exactly `a"b`, yet the query for
that very name returns the empty list: the JSON escaping of the quote makes
the LIKE pre-filter exclude the row, so the pre-filter is not merely an
optimization — the "if" direction of the claimed iff fails. -/
theorem C2_counterexample :
    get_user_game_by_game_id dbQuote "g1" = .ok (some { ugQuote with id := some 1 }) ∧
    ({ ugQuote with id := some 1 } : UserGame).has_tag_by_name "a\"b" = true ∧
    get_user_games_by_tag dbQuote "a\"b" = .ok [] := by
  decide

/-- C2 as amended: whenever `get_user_games_by_tag(q)` succeeds, a
`UserGame` appears in its result iff some stored row that passes the
`tags LIKE '%"q"%'` pre-filter converts to it and it carries a tag whose name
equals `q` case-insensitively.  In particular no record without such a tag is
ever admitted (the substring pre-filter never admits a strict-substring
match), but a matching record can be missed when JSON escaping or non-ASCII
case folding hides its tag from the pre-filter. -/
theorem C2_get_by_tag (db : DB) (q : String) (us : List UserGame)
    (h : get_user_games_by_tag db q = .ok us) :
    (∀ u ∈ us, u.has_tag_by_name q = true) ∧
    (∀ u, u ∈ us ↔
      ((∃ r, r ∈ db.rows ∧ tags_like q r = true ∧ row_to_user_game r = .ok u) ∧
        u.has_tag_by_name q = true)) := by
  refine ⟨?_, get_by_tag_mem db q us h⟩
  intro u hu
  exact ((get_by_tag_mem db q us h u).mp hu).2

/-- Witness for C2 at concrete inputs: the record tagged `Favorite` carries
the queried tag, by the theorem applied to the query result for `Favorite`
(which the pre-filter does admit). -/
theorem C2_get_by_tag_witness :
    ({ ugFav with id := some 1 } : UserGame).has_tag_by_name "Favorite" = true :=
  (C2_get_by_tag dbFav "Favorite" [{ ugFav with id := some 1 }] (by decide)).1
    { ugFav with id := some 1 } (by decide)

/-! ## C7: hard-failure policy on required columns, soft policy on the
optional JSON array columns -/

theorem except_map_error {ε α β : Type} (e : ε) (f : α → β) :
    (Except.error e : Except ε α).map f = .error e := rfl

theorem row_game_json_indep (row : Row) (g p s : Option String) :
    row_game { row with genres := g, platforms := p, screenshots := s } =
      (row_game row).map (fun game => { game with
        genres := parse_json_field g,
        platforms := parse_json_field p,
        screenshots := parse_json_field s }) := by
  have e1 : ({ row with genres := g, platforms := p, screenshots := s } : Row).game_id
      = row.game_id := rfl
  have e2 : ({ row with genres := g, platforms := p, screenshots := s } : Row).name
      = row.name := rfl
  simp only [row_game, e1, e2]
  cases row.game_id with
  | none => rfl
  | some gid =>
    cases row.name with
    | none => rfl
    | some nm =>
      simp only []
      cases hrd : parse_dt_optional row.release_date with
      | error e => rw [except_bind_error, except_bind_error, except_map_error]
      | ok rd =>
        rw [except_bind_ok, except_bind_ok]
        cases hca : parse_dt_optional row.created_at with
        | error e => rw [except_bind_error, except_bind_error, except_map_error]
        | ok ca =>
          rw [except_bind_ok, except_bind_ok]
          cases hua : parse_dt_optional row.updated_at with
          | error e => rw [except_bind_error, except_bind_error, except_map_error]
          | ok ua =>
            rw [except_bind_ok, except_bind_ok]
            by_cases h1 : gid = ""
            · simp [Game.init, h1, except_map_error]
            · by_cases h2 : nm = ""
              · simp [Game.init, h1, h2, except_map_error]
              · simp [Game.init, h1, h2, except_map_ok]

theorem row_to_isOk_json_indep (row : Row) (g p s : Option String) :
    isOkE (row_to_user_game { row with genres := g, platforms := p, screenshots := s }) =
      isOkE (row_to_user_game row) := by
  have hg := row_game_json_indep row g p s
  simp only [row_to_user_game]
  cases hgame : row_game row with
  | error e =>
    rw [hgame, except_map_error] at hg
    rw [hg, except_bind_error, except_bind_error]
  | ok game =>
    rw [hgame, except_map_ok] at hg
    rw [hg, except_bind_ok, except_bind_ok]
    rw [show row_tags ({ row with genres := g, platforms := p, screenshots := s } : Row)
        = row_tags row from rfl]
    cases htag : row_tags row with
    | error e => rw [except_bind_error, except_bind_error]
    | ok tags =>
      rw [except_bind_ok, except_bind_ok]
      cases row.date_added with
      | none => rfl
      | some da_s =>
        cases row.status with
        | none => rfl
        | some st_s =>
          cases row.played_time with
          | none => rfl
          | some pt =>
            simp only []
            cases hp1 : GameStatus.parse st_s with
            | error e => rw [except_bind_error, except_bind_error]
            | ok status =>
              rw [except_bind_ok, except_bind_ok]
              cases hp2 : parse_dt_required da_s with
              | error e => rw [except_bind_error, except_bind_error]
              | ok da =>
                rw [except_bind_ok, except_bind_ok]
                cases hp3 : parse_dt_optional row.date_started with
                | error e => rw [except_bind_error, except_bind_error]
                | ok ds =>
                  rw [except_bind_ok, except_bind_ok]
                  cases hp4 : parse_dt_optional row.date_completed with
                  | error e => rw [except_bind_error, except_bind_error]
                  | ok dc =>
                    rw [except_bind_ok, except_bind_ok]
                    cases hp5 : parse_dt_optional row.last_played with
                    | error e => rw [except_bind_error, except_bind_error]
                    | ok lp =>
                      rw [except_bind_ok, except_bind_ok]
                      by_cases ht0 : tags = []
                      · simp [UserGame.init, ht0]
                      · by_cases hpt0 : pt < 0 <;> simp [UserGame.init, ht0, hpt0, isOkE]

/-- C7: the row-to-object conversion (the function applied on every read)
fails whenever one of the required columns is null (or, for `tags`, empty or
undecodable), and — once the stages before it succeed — the error is the
descriptive "database corrupted" `ValueError` naming the offending column;
whereas nulling or corrupting the optional JSON array columns `genres`,
`platforms` and `screenshots` never changes whether conversion succeeds, and
on success those fields are exactly the soft-decoded values (absent when
null or undecodable). -/
theorem C7_corruption_policy :
    (∀ (row : Row) (u : UserGame), row_to_user_game row = .ok u →
       row.game_id ≠ none ∧ row.name ≠ none ∧
       (∃ ns, parse_json_field row.tags = some ns ∧ ns ≠ []) ∧
       row.date_added ≠ none ∧ row.status ≠ none ∧ row.played_time ≠ none) ∧
    (∀ row : Row, row.game_id = none → row_to_user_game row =
       .error (.valueError "game_id cannot be NULL in database, database is corrupted.")) ∧
    (∀ (row : Row) (gid : String), row.game_id = some gid → row.name = none →
       row_to_user_game row =
       .error (.valueError "name cannot be NULL in database, database is corrupted.")) ∧
    (∀ (row : Row) (game : Game), row_game row = .ok game →
       (parse_json_field row.tags = none ∨ parse_json_field row.tags = some []) →
       row_to_user_game row =
       .error (.valueError "Tags cannot be NULL or empty in database, database is corrupted.")) ∧
    (∀ (row : Row) (game : Game) (tags : List Tag), row_game row = .ok game →
       row_tags row = .ok tags → row.date_added = none →
       row_to_user_game row =
       .error (.valueError "date_added cannot be NULL in database, database is corrupted.")) ∧
    (∀ (row : Row) (game : Game) (tags : List Tag) (da_s : String),
       row_game row = .ok game → row_tags row = .ok tags →
       row.date_added = some da_s → row.status = none →
       row_to_user_game row =
       .error (.valueError "status cannot be NULL in database, database is corrupted.")) ∧
    (∀ (row : Row) (game : Game) (tags : List Tag) (da_s st_s : String),
       row_game row = .ok game → row_tags row = .ok tags →
       row.date_added = some da_s → row.status = some st_s →
       row.played_time = none →
       row_to_user_game row =
       .error (.valueError "played_time cannot be NULL in database, database is corrupted.")) ∧
    (∀ (row : Row) (g p s : Option String),
       isOkE (row_to_user_game { row with genres := g, platforms := p, screenshots := s }) =
         isOkE (row_to_user_game row)) ∧
    (∀ (row : Row) (u : UserGame), row_to_user_game row = .ok u →
       u.game.genres = parse_json_field row.genres ∧
       u.game.platforms = parse_json_field row.platforms ∧
       u.game.screenshots = parse_json_field row.screenshots) := by
  refine ⟨?_, ?_, ?_, ?_, ?_, ?_, ?_, row_to_isOk_json_indep, ?_⟩
  · intro row u h
    obtain ⟨game, tags, da_s, st_s, pt, status, da, ds, dc, lp,
      h1, h2, hda, hst, hpt, _, _, _, _, _, _⟩ := row_to_user_game_ok_inv h
    obtain ⟨gid, nm, _, _, _, hgid, hnm, _⟩ := row_game_ok_inv h1
    obtain ⟨ns, hns, hne, _⟩ := row_tags_ok_inv h2
    exact ⟨by simp [hgid], by simp [hnm], ⟨ns, hns, hne⟩,
      by simp [hda], by simp [hst], by simp [hpt]⟩
  · intro row h
    simp [row_to_user_game, row_game, h, except_bind_error]
  · intro row gid h1 h2
    simp [row_to_user_game, row_game, h1, h2, except_bind_error]
  · intro row game hgame hjson
    have htags : row_tags row =
        .error (.valueError "Tags cannot be NULL or empty in database, database is corrupted.") := by
      rcases hjson with hj | hj <;> simp [row_tags, hj]
    simp [row_to_user_game, hgame, except_bind_ok, htags, except_bind_error]
  · intro row game tags hgame htags hda
    simp [row_to_user_game, hgame, htags, except_bind_ok, hda]
  · intro row game tags da_s hgame htags hda hst
    simp [row_to_user_game, hgame, htags, except_bind_ok, hda, hst]
  · intro row game tags da_s st_s hgame htags hda hst hpt
    simp [row_to_user_game, hgame, htags, except_bind_ok, hda, hst, hpt]
  · intro row u h
    obtain ⟨game, tags, da_s, st_s, pt, status, da, ds, dc, lp,
      h1, _, _, _, _, _, _, _, _, _, hinit⟩ := row_to_user_game_ok_inv h
    obtain ⟨gid, nm, rd, ca, ua, _, _, _, _, _, _, _, hgame⟩ := row_game_ok_inv h1
    obtain ⟨_, _, hu⟩ := userGame_init_ok_inv hinit
    subst hu
    subst hgame
    exact ⟨rfl, rfl, rfl⟩

/-- Witness for C7 at concrete inputs: a row with a null `played_time` (all
earlier stages fine) fails naming `played_time`; corrupting the `genres`
text of the valid stored row leaves conversion successful. -/
theorem C7_corruption_policy_witness :
    row_to_user_game { user_game_row 1 ugFav with played_time := none } =
      .error (.valueError "played_time cannot be NULL in database, database is corrupted.") ∧
    isOkE (row_to_user_game { user_game_row 1 ugFav with
      genres := some "not json", platforms := none, screenshots := some "[" }) =
      isOkE (row_to_user_game (user_game_row 1 ugFav)) :=
  ⟨C7_corruption_policy.2.2.2.2.2.2.1
      { user_game_row 1 ugFav with played_time := none } gameG1
      [⟨none, "Favorite"⟩, ⟨none, "Wishlist"⟩]
      (datetime_isoformat dt2023) "playing"
      (by decide) (by decide) (by decide) (by decide) (by decide),
   C7_corruption_policy.2.2.2.2.2.2.2.1 (user_game_row 1 ugFav)
      (some "not json") none (some "[")⟩

end HostCart
